import Mathlib

/-!
Verification development for the Snek compiler repository
(`src/src/assembly.rs`, `src/src/compiler.rs`, `src/src/constants.rs`,
`src/src/parser.rs`, `src/runtime/start.rs`).

The Rust sources are shallowly embedded: pure Rust functions become Lean
functions, Rust panics become `Except.error` / `Option.none`, the global
label counter of `compiler.rs` is threaded explicitly, and the behaviour of
emitted x86-64 instruction sequences is given by a small-step machine over
64-bit two's-complement integers modelled as `Int` with explicit wrapping.
-/

namespace Snek

/-! ### `src/src/constants.rs` -/

/-- `WORD_SIZE` from constants.rs. -/
def WORD_SIZE : Int := 8

/-- `I63_MIN` from constants.rs. -/
def I63_MIN : Int := -4611686018427387904

/-- `I63_MAX` from constants.rs. -/
def I63_MAX : Int := 4611686018427387903

/-- `NIL_VAL` from constants.rs. -/
def NIL_VAL : Int := 1

/-- `FALSE_VAL` from constants.rs. -/
def FALSE_VAL : Int := 3

/-- `TRUE_VAL` from constants.rs. -/
def TRUE_VAL : Int := 7

/-- `BOOLEAN_LSB` from constants.rs. -/
def BOOLEAN_LSB : Int := 3

/-- `NUM_OVERFLOW_LABEL` from constants.rs. -/
def NUM_OVERFLOW_LABEL : String := "error_numeric_overflow"

/-- `INVALID_TYPE_LABEL` from constants.rs. -/
def INVALID_TYPE_LABEL : String := "error_invalid_type"

/-- `INDEX_OUT_OF_BOUNDS_LABEL` from constants.rs. -/
def INDEX_OUT_OF_BOUNDS_LABEL : String := "error_index_out_of_bounds"

/-- Modelled from the spec: `compiler.rs` references `NOT_HEAP_ADDRESS_LABEL`,
which is absent from the `constants.rs` present under `src/`; the spec's error
taxonomy names this error "invalid vector address".  Only the distinctness of
this label from the other error labels matters below, not its spelling. -/
def NOT_HEAP_ADDRESS_LABEL : String := "error_invalid_vector_address"

/-- Modelled from the spec: `compiler.rs` references `NOT_INDEX_OFFSET_LABEL`,
absent from the `constants.rs` under `src/`; the spec's error taxonomy names
this error "invalid vector offset". -/
def NOT_INDEX_OFFSET_LABEL : String := "error_invalid_vector_offset"

/-- `ErrCode::Overflow = 1` from constants.rs (`compiler.rs` refers to it as
`ERR_NUM_OVERFLOW`). -/
def ERR_NUM_OVERFLOW : Int := 1

/-- `ErrCode::InvalidType = 2` from constants.rs. -/
def ERR_INVALID_TYPE : Int := 2

/-- `ErrCode::IndexOutOfBounds = 3` from constants.rs. -/
def ERR_INDEX_OUT_OF_BOUNDS : Int := 3

/-- Modelled from the spec: `compiler.rs` references `ERR_NOT_HEAP_ADDRESS`,
absent from `constants.rs` under `src/`; the spec's §4.1 catalog and the
runtime's `snek_error` message table give "invalid vector address" code 4. -/
def ERR_NOT_HEAP_ADDRESS : Int := 4

/-- Modelled from the spec: `compiler.rs` references `ERR_NOT_INDEX_OFFSET`,
absent from `constants.rs` under `src/`; spec §4.1 and the runtime message
table give "invalid vector offset" code 5. -/
def ERR_NOT_INDEX_OFFSET : Int := 5

/-! ### `src/src/assembly.rs`: the instruction model and the NASM renderer -/

/-- `Reg` from assembly.rs. -/
inductive Reg where
  | RAX
  | RDI
  | RSI
  | RSP
  | RBX
  | R12
  | R13
  | R15
deriving DecidableEq, Repr

/-- `Val` from assembly.rs.  Offsets of `RegOff` are subtracted from the
register: a positive offset addresses lower memory. -/
inductive Val where
  | Reg (r : Reg)
  | Imm (n : Int)
  | RegOff (r : Reg) (off : Int)
deriving DecidableEq, Repr

/-- `Instr` from assembly.rs. -/
inductive Instr where
  | Mov (dst src : Val)
  | Add (dst src : Val)
  | Sub (dst src : Val)
  | Mul (dst src : Val)
  | Cmp (v1 v2 : Val)
  | Test (v1 v2 : Val)
  | CMove (dst src : Val)
  | CMovg (dst src : Val)
  | CMovge (dst src : Val)
  | CMovl (dst src : Val)
  | CMovle (dst src : Val)
  | Sar (dst amount : Val)
  | And (dst src : Val)
  | Or (dst src : Val)
  | Xor (dst src : Val)
  | Not (dst : Val)
  | Label (l : String)
  | Jump (l : String)
  | JumpEqual (l : String)
  | JumpNotEqual (l : String)
  | JumpNotZero (l : String)
  | JumpGreaterEqual (l : String)
  | JumpLess (l : String)
  | JumpOverflow (l : String)
  | Push (v : Val)
  | Pop (v : Val)
  | Call (l : String)
  | Ret
deriving DecidableEq, Repr

/-- `FInstr` from assembly.rs: an instruction with its indentation level. -/
structure FInstr where
  instr : Instr
  indentation : Nat
deriving DecidableEq, Repr

/-- `val_to_str` from assembly.rs.  The Rust function panics (via the
catch-all `_ => panic!("Unhandled Instruction value: ...")` arm) on every
`Val` not matched by an explicit arm — in particular on every
register-with-offset operand whose register is not RAX, RSP, R12 or R15.
The panic is modelled as `none`. -/
def val_to_str : Val → Option String
  | .Imm num => some (toString num)
  | .Reg .RAX => some "rax"
  | .Reg .RBX => some "rbx"
  | .Reg .RDI => some "rdi"
  | .Reg .RSI => some "rsi"
  | .Reg .RSP => some "rsp"
  | .Reg .R12 => some "r12"
  | .Reg .R13 => some "r13"
  | .Reg .R15 => some "r15"
  | .RegOff .RAX off =>
    if off > 0 then some ("[rax - " ++ toString off ++ "]")
    else some ("[rax + " ++ toString (-1 * off) ++ "]")
  | .RegOff .RSP off =>
    if off > 0 then some ("[rsp - " ++ toString off ++ "]")
    else some ("[rsp + " ++ toString (-1 * off) ++ "]")
  | .RegOff .R12 off =>
    if off > 0 then some ("[r12 - " ++ toString off ++ "]")
    else some ("[r12 + " ++ toString (-1 * off) ++ "]")
  | .RegOff .R15 off =>
    if off > 0 then some ("[r15 - " ++ toString off ++ "]")
    else some ("[r15 + " ++ toString (-1 * off) ++ "]")
  | _ => none

/-- Renders `op v1, v2`, propagating a panic of `val_to_str`. -/
def render2 (op : String) (v1 v2 : Val) : Option String :=
  match val_to_str v1, val_to_str v2 with
  | some s1, some s2 => some (op ++ " " ++ s1 ++ ", " ++ s2)
  | _, _ => none

/-- `instr_to_str` from assembly.rs, with `val_to_str` panics propagated as
`none`. -/
def instr_to_str : Instr → Option String
  | .Mov v1 v2 => render2 "mov" v1 v2
  | .Add v1 v2 => render2 "add" v1 v2
  | .Sub v1 v2 => render2 "sub" v1 v2
  | .Mul v1 v2 => render2 "imul" v1 v2
  | .Cmp v1 v2 => render2 "cmp" v1 v2
  | .Test v1 v2 => render2 "test" v1 v2
  | .CMove v1 v2 => render2 "cmove" v1 v2
  | .CMovg v1 v2 => render2 "cmovg" v1 v2
  | .CMovge v1 v2 => render2 "cmovge" v1 v2
  | .CMovl v1 v2 => render2 "cmovl" v1 v2
  | .CMovle v1 v2 => render2 "cmovle" v1 v2
  | .And v1 v2 => render2 "and" v1 v2
  | .Or v1 v2 => render2 "or" v1 v2
  | .Xor v1 v2 => render2 "xor" v1 v2
  | .Not v =>
    match val_to_str v with
    | some s => some ("not " ++ s)
    | none => none
  | .Label l => some (l ++ ":")
  | .Jump l => some ("jmp " ++ l)
  | .JumpEqual l => some ("je " ++ l)
  | .JumpNotEqual l => some ("jne " ++ l)
  | .JumpNotZero l => some ("jnz " ++ l)
  | .JumpGreaterEqual l => some ("jge " ++ l)
  | .JumpLess l => some ("jl " ++ l)
  | .JumpOverflow l => some ("jo " ++ l)
  | .Sar v1 v2 => render2 "sar" v1 v2
  | .Push v =>
    match val_to_str v with
    | some s => some ("push " ++ s)
    | none => none
  | .Pop v =>
    match val_to_str v with
    | some s => some ("pop " ++ s)
    | none => none
  | .Call l => some ("call " ++ l)
  | .Ret => some "ret"

/-- Kernel-executable prefix test on character lists. -/
def listPrefixOf : List Char → List Char → Bool
  | [], _ => true
  | _ :: _, [] => false
  | a :: as, b :: bs => a = b && listPrefixOf as bs

/-- Kernel-executable substring search on character lists. -/
def hasSubstr (pat : List Char) : List Char → Bool
  | [] => listPrefixOf pat []
  | c :: rest => listPrefixOf pat (c :: rest) || hasSubstr pat rest

/-- Executable substring test: does `pat` occur inside `s`? -/
def containsSubstr (s pat : String) : Bool :=
  hasSubstr pat.toList s.toList

/-! ### `src/src/abstract_syntax.rs`: the AST consumed by `compiler.rs` -/

/-- `Op1` from abstract_syntax.rs. -/
inductive Op1 where
  | Add1
  | Sub1
  | IsNum
  | IsBool
  | Print
deriving DecidableEq, Repr

/-- `Op2` from abstract_syntax.rs. -/
inductive Op2 where
  | Plus
  | Minus
  | Times
  | Equal
  | Greater
  | GreaterEqual
  | Less
  | LessEqual
deriving DecidableEq, Repr

/-- `Expr` from abstract_syntax.rs (the tuple-language AST that
`compiler.rs` compiles). -/
inductive Expr where
  | Number (n : Int)
  | Boolean (b : Bool)
  | Nil
  | Id (s : String)
  | Let (bindings : List (String × Expr)) (body : Expr)
  | UnOp (op : Op1) (e : Expr)
  | BinOp (op : Op2) (e1 e2 : Expr)
  | If (cond thn els : Expr)
  | Loop (e : Expr)
  | Break (e : Expr)
  | Set (name : String) (e : Expr)
  | Block (es : List Expr)
  | FunCall (name : String) (args : List Expr)
  | Tuple (args : List Expr)
  | Index (addr offset : Expr)
deriving Repr

/-! ### `src/src/compiler.rs` -/

/-- `Context` from compiler.rs.  `im::HashMap` environments are modelled as
association lists where an update conses a new pair in front and lookup
returns the most recent pair, which is observationally the replace-on-update
behaviour of `im::HashMap`. -/
structure Context where
  si : Int
  env : List (String × Int)
  break_label : String
  indentation : Nat
  function_env : List (String × List String)
  compiling_main : Bool

/-- `int_overflow` from compiler.rs. -/
def int_overflow (i : Int) : Bool :=
  i < I63_MIN || i > I63_MAX

/-- `get_new_label` from compiler.rs.  The global `LABEL_CTR` is threaded
explicitly: the result is the fresh label together with the new counter. -/
def get_new_label (s : String) (ctr : Nat) : String × Nat :=
  (s ++ "_" ++ toString ctr, ctr + 1)

/-- `get_num_overflow_instrs` from compiler.rs. -/
def get_num_overflow_instrs (ctxt : Context) : List FInstr :=
  [⟨.JumpOverflow NUM_OVERFLOW_LABEL, ctxt.indentation⟩]

/-- `is_number` from compiler.rs: sets condition codes for "RAX holds a
number". -/
def is_number (ctxt : Context) : List FInstr :=
  [⟨.Mov (.Reg .RBX) (.Reg .RAX), ctxt.indentation⟩,
   ⟨.Not (.Reg .RBX), ctxt.indentation⟩,
   ⟨.And (.Reg .RBX) (.Imm 1), ctxt.indentation⟩,
   ⟨.Cmp (.Reg .RBX) (.Imm 1), ctxt.indentation⟩]

/-- `is_number_with_error` from compiler.rs. -/
def is_number_with_error (ctxt : Context) : List FInstr :=
  is_number ctxt ++ [⟨.JumpNotEqual INVALID_TYPE_LABEL, ctxt.indentation⟩]

/-- `is_boolean` from compiler.rs. -/
def is_boolean (ctxt : Context) : List FInstr :=
  [⟨.Mov (.Reg .RBX) (.Reg .RAX), ctxt.indentation⟩,
   ⟨.And (.Reg .RBX) (.Imm 3), ctxt.indentation⟩,
   ⟨.And (.Reg .RBX) (.Imm BOOLEAN_LSB), ctxt.indentation⟩,
   ⟨.Cmp (.Reg .RBX) (.Imm BOOLEAN_LSB), ctxt.indentation⟩]

/-- `is_heap_address` from compiler.rs: sets condition codes for "RAX has
low bit 1". -/
def is_heap_address (ctxt : Context) : List FInstr :=
  [⟨.Mov (.Reg .RBX) (.Reg .RAX), ctxt.indentation⟩,
   ⟨.And (.Reg .RBX) (.Imm 1), ctxt.indentation⟩,
   ⟨.Cmp (.Reg .RBX) (.Imm 1), ctxt.indentation⟩]

/-- `is_heap_address_with_error` from compiler.rs. -/
def is_heap_address_with_error (ctxt : Context) : List FInstr :=
  is_heap_address ctxt ++ [⟨.JumpNotEqual NOT_HEAP_ADDRESS_LABEL, ctxt.indentation⟩]

/-- `are_same_types` from compiler.rs. -/
def are_same_types (stack_offset : Int) (ctxt : Context) : List FInstr :=
  [⟨.Mov (.Reg .RBX) (.Reg .RAX), ctxt.indentation⟩,
   ⟨.Xor (.Reg .RBX) (.RegOff .RSP stack_offset), ctxt.indentation⟩,
   ⟨.Test (.Reg .RBX) (.Imm 1), ctxt.indentation⟩,
   ⟨.JumpNotZero INVALID_TYPE_LABEL, ctxt.indentation⟩,
   ⟨.Mov (.Reg .R12) (.Reg .RAX), ctxt.indentation⟩,
   ⟨.And (.Reg .R12) (.Imm 1), ctxt.indentation⟩,
   ⟨.And (.Reg .RBX) (.Imm 3), ctxt.indentation⟩,
   ⟨.Xor (.Reg .R12) (.Reg .RBX), ctxt.indentation⟩,
   ⟨.Cmp (.Reg .R12) (.Imm 3), ctxt.indentation⟩,
   ⟨.JumpEqual INVALID_TYPE_LABEL, ctxt.indentation⟩]

/-- `get_inequality_instrs` from compiler.rs. -/
def get_inequality_instrs (ctxt : Context) : List FInstr :=
  [⟨.Mov (.Reg .RBX) (.Reg .RAX), ctxt.indentation⟩,
   ⟨.Or (.Reg .RBX) (.RegOff .RSP (ctxt.si * WORD_SIZE)), ctxt.indentation⟩,
   ⟨.Test (.Reg .RBX) (.Imm 1), ctxt.indentation⟩,
   ⟨.JumpNotEqual INVALID_TYPE_LABEL, ctxt.indentation⟩,
   ⟨.Cmp (.RegOff .RSP (ctxt.si * WORD_SIZE)) (.Reg .RAX), ctxt.indentation⟩,
   ⟨.Mov (.Reg .RBX) (.Imm TRUE_VAL), ctxt.indentation⟩,
   ⟨.Mov (.Reg .RAX) (.Imm FALSE_VAL), ctxt.indentation⟩]

/-- `get_error_instrs` from compiler.rs: the trampoline for one error code.
The `panic!` on an unknown code is modelled as `Except.error`. -/
def get_error_instrs (errcode : Int) (indentation : Nat) : Except String (List FInstr) :=
  match
    (if errcode = ERR_NUM_OVERFLOW then some NUM_OVERFLOW_LABEL
     else if errcode = ERR_INVALID_TYPE then some INVALID_TYPE_LABEL
     else if errcode = ERR_INDEX_OUT_OF_BOUNDS then some INDEX_OUT_OF_BOUNDS_LABEL
     else if errcode = ERR_NOT_HEAP_ADDRESS then some NOT_HEAP_ADDRESS_LABEL
     else if errcode = ERR_NOT_INDEX_OFFSET then some NOT_INDEX_OFFSET_LABEL
     else none) with
  | none => .error ("Unknown error code: " ++ toString errcode)
  | some label =>
    .ok [⟨.Label label, indentation⟩,
         ⟨.Mov (.Reg .RDI) (.Imm errcode), indentation + 1⟩,
         ⟨.Push (.Reg .RSP), indentation + 1⟩,
         ⟨.Call "snek_error", indentation + 1⟩]

/-- `compile_error_instrs` from compiler.rs. -/
def compile_error_instrs (indentation : Nat) : Except String (List FInstr) :=
  match get_error_instrs ERR_NUM_OVERFLOW indentation,
        get_error_instrs ERR_INVALID_TYPE indentation,
        get_error_instrs ERR_INDEX_OUT_OF_BOUNDS indentation,
        get_error_instrs ERR_NOT_HEAP_ADDRESS indentation,
        get_error_instrs ERR_NOT_INDEX_OFFSET indentation with
  | .ok a, .ok b, .ok c, .ok d, .ok e => .ok (a ++ b ++ c ++ d ++ e)
  | _, _, _, _, _ => .error "Unknown error code"

mutual

/-- `compile_expr` from compiler.rs.  Rust `panic!`s become `Except.error`
carrying the panic message; the global label counter is threaded as the
`ctr` argument and returned alongside the emitted instructions. -/
def compile_expr (e : Expr) (ctxt : Context) (ctr : Nat) :
    Except String (List FInstr × Nat) :=
  match e with
  | .Number num =>
    if int_overflow num then
      .error "Invalid: number must be in the range of a 63-bit signed integer"
    else
      -- num << 1
      .ok ([⟨.Mov (.Reg .RAX) (.Imm (num * 2)), ctxt.indentation⟩], ctr)
  | .Boolean false =>
    .ok ([⟨.Mov (.Reg .RAX) (.Imm FALSE_VAL), ctxt.indentation⟩], ctr)
  | .Boolean true =>
    .ok ([⟨.Mov (.Reg .RAX) (.Imm TRUE_VAL), ctxt.indentation⟩], ctr)
  | .Nil =>
    .ok ([⟨.Mov (.Reg .RAX) (.Imm NIL_VAL), ctxt.indentation⟩], ctr)
  | .Id s =>
    if s = "input" then
      if !ctxt.compiling_main then
        .error "Invalid: input can only be used in the main expression"
      else
        .ok ([⟨.Mov (.Reg .RAX) (.Reg .RDI), ctxt.indentation⟩], ctr)
    else
      match ctxt.env.lookup s with
      | none => .error ("Unbound variable identifier " ++ s)
      | some offset =>
        .ok ([⟨.Mov (.Reg .RAX) (.RegOff .RSP offset), ctxt.indentation⟩], ctr)
  | .UnOp .Add1 e1 =>
    match compile_expr e1 ctxt ctr with
    | .error s => .error s
    | .ok (is, c1) =>
      .ok (is ++ is_number_with_error ctxt ++
           -- 1 << 1
           [⟨.Add (.Reg .RAX) (.Imm 2), ctxt.indentation⟩] ++
           get_num_overflow_instrs ctxt, c1)
  | .UnOp .Sub1 e1 =>
    match compile_expr e1 ctxt ctr with
    | .error s => .error s
    | .ok (is, c1) =>
      .ok (is ++ is_number_with_error ctxt ++
           [⟨.Sub (.Reg .RAX) (.Imm 2), ctxt.indentation⟩] ++
           get_num_overflow_instrs ctxt, c1)
  | .UnOp .IsNum e1 =>
    match compile_expr e1 ctxt ctr with
    | .error s => .error s
    | .ok (is, c1) =>
      .ok (is ++ is_number ctxt ++
           [⟨.Mov (.Reg .RAX) (.Imm FALSE_VAL), ctxt.indentation⟩,
            ⟨.Mov (.Reg .RBX) (.Imm TRUE_VAL), ctxt.indentation⟩,
            ⟨.CMove (.Reg .RAX) (.Reg .RBX), ctxt.indentation⟩], c1)
  | .UnOp .IsBool e1 =>
    match compile_expr e1 ctxt ctr with
    | .error s => .error s
    | .ok (is, c1) =>
      .ok (is ++ is_boolean ctxt ++
           [⟨.Mov (.Reg .RAX) (.Imm FALSE_VAL), ctxt.indentation⟩,
            ⟨.Mov (.Reg .RBX) (.Imm TRUE_VAL), ctxt.indentation⟩,
            ⟨.CMove (.Reg .RAX) (.Reg .RBX), ctxt.indentation⟩], c1)
  | .UnOp .Print e1 =>
    match compile_expr e1 ctxt ctr with
    | .error s => .error s
    | .ok (is, c1) =>
      let alignment_offset : Int :=
        if Int.tmod (ctxt.si + 1) 2 ≠ 0 then WORD_SIZE else 0
      let rdi_offset := ctxt.si * WORD_SIZE + alignment_offset
      let rsp_offset := ctxt.si * WORD_SIZE + alignment_offset
      .ok (is ++
           [⟨.Mov (.RegOff .RSP rdi_offset) (.Reg .RDI), ctxt.indentation⟩,
            ⟨.Mov (.Reg .RDI) (.Reg .RAX), ctxt.indentation⟩,
            ⟨.Sub (.Reg .RSP) (.Imm rsp_offset), ctxt.indentation⟩,
            ⟨.Call "snek_print", ctxt.indentation⟩,
            ⟨.Add (.Reg .RSP) (.Imm rsp_offset), ctxt.indentation⟩,
            ⟨.Mov (.Reg .RDI) (.RegOff .RSP rdi_offset), ctxt.indentation⟩], c1)
  | .BinOp op e1 e2 =>
    match op with
    | .Plus | .Minus | .Times =>
      let stack_offset := ctxt.si * WORD_SIZE
      match compile_expr e1 ctxt ctr with
      | .error s => .error s
      | .ok (is1, c1) =>
        match compile_expr e2 { ctxt with si := ctxt.si + 1 } c1 with
        | .error s => .error s
        | .ok (is2, c2) =>
          let op_instrs : List FInstr :=
            match op with
            | .Plus =>
              [⟨.Add (.Reg .RAX) (.RegOff .RSP stack_offset), ctxt.indentation⟩]
            | .Minus =>
              [⟨.Mov (.Reg .RBX) (.Reg .RAX), ctxt.indentation⟩,
               ⟨.Mov (.Reg .RAX) (.RegOff .RSP stack_offset), ctxt.indentation⟩,
               ⟨.Sub (.Reg .RAX) (.Reg .RBX), ctxt.indentation⟩]
            | _ =>
              [⟨.Sar (.Reg .RAX) (.Imm 1), ctxt.indentation⟩,
               ⟨.Mul (.Reg .RAX) (.RegOff .RSP stack_offset), ctxt.indentation⟩]
          .ok (is1 ++
               [⟨.Test (.Reg .RAX) (.Imm 1), ctxt.indentation⟩,
                ⟨.JumpNotZero INVALID_TYPE_LABEL, ctxt.indentation⟩,
                ⟨.Mov (.RegOff .RSP stack_offset) (.Reg .RAX), ctxt.indentation⟩] ++
               is2 ++
               [⟨.Test (.Reg .RAX) (.Imm 1), ctxt.indentation⟩,
                ⟨.JumpNotZero INVALID_TYPE_LABEL, ctxt.indentation⟩] ++
               op_instrs ++ get_num_overflow_instrs ctxt, c2)
    | .Equal | .Greater | .GreaterEqual | .Less | .LessEqual =>
      let stack_offset := ctxt.si * WORD_SIZE
      match compile_expr e1 ctxt ctr with
      | .error s => .error s
      | .ok (is1, c1) =>
        match compile_expr e2 { ctxt with si := ctxt.si + 1 } c1 with
        | .error s => .error s
        | .ok (is2, c2) =>
          let op_instrs : List FInstr :=
            match op with
            | .Equal =>
              are_same_types stack_offset ctxt ++
              [⟨.Cmp (.Reg .RAX) (.RegOff .RSP stack_offset), ctxt.indentation⟩,
               ⟨.Mov (.Reg .RBX) (.Imm TRUE_VAL), ctxt.indentation⟩,
               ⟨.Mov (.Reg .RAX) (.Imm FALSE_VAL), ctxt.indentation⟩,
               ⟨.CMove (.Reg .RAX) (.Reg .RBX), ctxt.indentation⟩]
            | .Greater =>
              get_inequality_instrs ctxt ++
              [⟨.CMovg (.Reg .RAX) (.Reg .RBX), ctxt.indentation⟩]
            | .GreaterEqual =>
              get_inequality_instrs ctxt ++
              [⟨.CMovge (.Reg .RAX) (.Reg .RBX), ctxt.indentation⟩]
            | .Less =>
              get_inequality_instrs ctxt ++
              [⟨.CMovl (.Reg .RAX) (.Reg .RBX), ctxt.indentation⟩]
            | _ =>
              get_inequality_instrs ctxt ++
              [⟨.CMovle (.Reg .RAX) (.Reg .RBX), ctxt.indentation⟩]
          .ok (is1 ++
               [⟨.Mov (.RegOff .RSP stack_offset) (.Reg .RAX), ctxt.indentation⟩] ++
               is2 ++ op_instrs, c2)
  | .Let bindings body =>
    match compile_bindings bindings 0 ctxt ctxt.env [] ctr with
    | .error s => .error s
    | .ok (bis, new_env, c1) =>
      let body_stack_index := ctxt.si + (bindings.length : Int)
      match compile_expr body { ctxt with si := body_stack_index, env := new_env } c1 with
      | .error s => .error s
      | .ok (bodyis, c2) => .ok (bis ++ bodyis, c2)
  | .If cond thn els =>
    let (end_label, c1) := get_new_label "ifend" ctr
    let (else_label, c2) := get_new_label "ifelse" c1
    match compile_expr cond ctxt c2 with
    | .error s => .error s
    | .ok (ci, c3) =>
      match compile_expr thn { ctxt with indentation := ctxt.indentation + 1 } c3 with
      | .error s => .error s
      | .ok (ti, c4) =>
        match compile_expr els { ctxt with indentation := ctxt.indentation + 1 } c4 with
        | .error s => .error s
        | .ok (ei, c5) =>
          .ok (ci ++
               [⟨.Cmp (.Reg .RAX) (.Imm FALSE_VAL), ctxt.indentation⟩,
                ⟨.JumpEqual else_label, ctxt.indentation⟩] ++
               ti ++
               [⟨.Jump end_label, ctxt.indentation + 1⟩,
                ⟨.Label else_label, ctxt.indentation⟩] ++
               ei ++
               [⟨.Label end_label, ctxt.indentation⟩], c5)
  | .Block es =>
    compile_block es ctxt ctr
  | .Set name e1 =>
    match ctxt.env.lookup name with
    | none => .error ("Unbound variable identifier " ++ name)
    | some variable_loc =>
      match compile_expr e1 ctxt ctr with
      | .error s => .error s
      | .ok (is, c1) =>
        .ok (is ++ [⟨.Mov (.RegOff .RSP variable_loc) (.Reg .RAX), ctxt.indentation⟩], c1)
  | .Loop e1 =>
    let (start_label, c1) := get_new_label "loop" ctr
    let (end_label, c2) := get_new_label "endloop" c1
    match compile_expr e1
        { ctxt with break_label := end_label, indentation := ctxt.indentation + 1 } c2 with
    | .error s => .error s
    | .ok (is, c3) =>
      .ok ([⟨.Label start_label, ctxt.indentation⟩] ++ is ++
           [⟨.Jump start_label, ctxt.indentation⟩,
            ⟨.Label end_label, ctxt.indentation⟩], c3)
  | .Break e1 =>
    if ctxt.break_label = "" then
      .error "Error: break without surrounding loop"
    else
      match compile_expr e1 ctxt ctr with
      | .error s => .error s
      | .ok (is, c1) =>
        .ok (is ++ [⟨.Jump ctxt.break_label, ctxt.indentation⟩], c1)
  | .FunCall funname args =>
    if (ctxt.function_env.lookup funname).isNone then
      .error ("Invalid: undefined function " ++ funname)
    else
      let expected_num := ((ctxt.function_env.lookup funname).getD []).length
      if expected_num ≠ args.length then
        .error ("Invalid: function " ++ funname ++ " called with " ++
                toString args.length ++ " args, expected " ++ toString expected_num)
      else
        let alignment_offset : Int :=
          if Int.tmod (ctxt.si + (args.length : Int) + 1) 2 ≠ 0 then WORD_SIZE else 0
        match compile_call_args args ctxt alignment_offset ctr with
        | .error s => .error s
        | .ok (argis, c1) =>
          let rsp_offset := (ctxt.si + (args.length : Int)) * WORD_SIZE + alignment_offset
          .ok ([⟨.Mov (.RegOff .RSP (ctxt.si * WORD_SIZE + alignment_offset))
                      (.Reg .RDI), ctxt.indentation⟩] ++
               argis ++
               [⟨.Sub (.Reg .RSP) (.Imm rsp_offset), ctxt.indentation⟩,
                ⟨.Call funname, ctxt.indentation⟩,
                ⟨.Mov (.Reg .RDI)
                      (.RegOff .RSP (-((args.length : Int) * WORD_SIZE))), ctxt.indentation⟩,
                ⟨.Add (.Reg .RSP) (.Imm rsp_offset), ctxt.indentation⟩], c1)
  | .Tuple args =>
    let tup_addr_offset := ctxt.si * WORD_SIZE
    match compile_tuple_args args ctxt ctr with
    | .error s => .error s
    | .ok (argis, c1) =>
      .ok ([⟨.Mov (.RegOff .RSP tup_addr_offset) (.Reg .R15), ctxt.indentation⟩,
            -- (args.len() as i64) << 1
            ⟨.Mov (.Reg .R12) (.Imm ((args.length : Int) * 2)), ctxt.indentation⟩,
            ⟨.Mov (.RegOff .R15 0) (.Reg .R12), ctxt.indentation⟩,
            ⟨.Add (.Reg .R15) (.Imm WORD_SIZE), ctxt.indentation⟩] ++
           argis ++
           [⟨.Mov (.Reg .RAX) (.RegOff .RSP tup_addr_offset), ctxt.indentation⟩,
            ⟨.Add (.Reg .RAX) (.Imm 1), ctxt.indentation⟩], c1)
  | .Index addr offset =>
    match compile_expr addr ctxt ctr with
    | .error s => .error s
    | .ok (ais, c1) =>
      let addr_offset := ctxt.si * WORD_SIZE
      match compile_expr offset { ctxt with si := ctxt.si + 1 } c1 with
      | .error s => .error s
      | .ok (ois, c2) =>
        .ok (ais ++ is_heap_address_with_error ctxt ++
             [⟨.Mov (.RegOff .RSP addr_offset) (.Reg .RAX), ctxt.indentation⟩] ++
             ois ++ is_number ctxt ++
             [⟨.JumpNotEqual NOT_INDEX_OFFSET_LABEL, ctxt.indentation⟩,
              ⟨.Mov (.Reg .RBX) (.RegOff .RSP addr_offset), ctxt.indentation⟩,
              ⟨.Sub (.Reg .RBX) (.Imm 1), ctxt.indentation⟩,
              ⟨.Mov (.Reg .R12) (.RegOff .RBX 0), ctxt.indentation⟩,
              ⟨.Cmp (.Reg .RAX) (.Reg .R12), ctxt.indentation⟩,
              ⟨.JumpGreaterEqual INDEX_OUT_OF_BOUNDS_LABEL, ctxt.indentation⟩,
              ⟨.Cmp (.Reg .RAX) (.Imm 0), ctxt.indentation⟩,
              ⟨.JumpLess INDEX_OUT_OF_BOUNDS_LABEL, ctxt.indentation⟩,
              ⟨.Sar (.Reg .RAX) (.Imm 1), ctxt.indentation⟩,
              ⟨.Add (.Reg .RAX) (.Imm 1), ctxt.indentation⟩,
              ⟨.Mul (.Reg .RAX) (.Imm WORD_SIZE), ctxt.indentation⟩,
              ⟨.Add (.Reg .RBX) (.Reg .RAX), ctxt.indentation⟩,
              ⟨.Mov (.Reg .RAX) (.RegOff .RBX 0), ctxt.indentation⟩], c2)

/-- The `for (index, (id, e)) in bindings.iter().enumerate()` loop of the
`Expr::Let` arm of `compile_expr`.  Returns the accumulated instructions,
the extended environment and the threaded label counter. -/
def compile_bindings (bs : List (String × Expr)) (index : Nat) (ctxt : Context)
    (env : List (String × Int)) (bound : List String) (ctr : Nat) :
    Except String (List FInstr × List (String × Int) × Nat) :=
  match bs with
  | [] => .ok ([], env, ctr)
  | (id, e) :: rest =>
    if bound.contains id then
      .error "Duplicate binding"
    else
      let id_stack_index := ctxt.si + (index : Int)
      match compile_expr e { ctxt with si := id_stack_index, env := env } ctr with
      | .error s => .error s
      | .ok (eis, c1) =>
        match compile_bindings rest (index + 1) ctxt
            ((id, id_stack_index * WORD_SIZE) :: env) (id :: bound) c1 with
        | .error s => .error s
        | .ok (ris, env', c2) =>
          .ok (eis ++
               [⟨.Mov (.RegOff .RSP (id_stack_index * WORD_SIZE)) (.Reg .RAX),
                 ctxt.indentation⟩] ++ ris, env', c2)

/-- The `for e in exprs.iter()` loop of the `Expr::Block` arm of
`compile_expr`. -/
def compile_block (es : List Expr) (ctxt : Context) (ctr : Nat) :
    Except String (List FInstr × Nat) :=
  match es with
  | [] => .ok ([], ctr)
  | e :: rest =>
    match compile_expr e ctxt ctr with
    | .error s => .error s
    | .ok (is1, c1) =>
      match compile_block rest ctxt c1 with
      | .error s => .error s
      | .ok (is2, c2) => .ok (is1 ++ is2, c2)

/-- The `for arg in args.iter()` loop of the `Expr::Tuple` arm of
`compile_expr`: each element is compiled at `si + 1`, stored at the current
heap pointer and the heap pointer is bumped one word. -/
def compile_tuple_args (args : List Expr) (ctxt : Context) (ctr : Nat) :
    Except String (List FInstr × Nat) :=
  match args with
  | [] => .ok ([], ctr)
  | a :: rest =>
    match compile_expr a { ctxt with si := ctxt.si + 1 } ctr with
    | .error s => .error s
    | .ok (ais, c1) =>
      match compile_tuple_args rest ctxt c1 with
      | .error s => .error s
      | .ok (ris, c2) =>
        .ok (ais ++
             [⟨.Mov (.RegOff .R15 0) (.Reg .RAX), ctxt.indentation⟩,
              ⟨.Add (.Reg .R15) (.Imm WORD_SIZE), ctxt.indentation⟩] ++ ris, c2)

/-- The `for (index, arg) in args.iter().rev().enumerate()` loop of the
`Expr::FunCall` arm of `compile_expr`.  The Rust loop walks the argument
list from the last element (reverse index 0) to the first (reverse index
`len - 1`); here the recursion first emits the code for the tail (the
arguments to the right, which the Rust loop visits earlier) and then the
head, whose reverse index is `rest.length`. -/
def compile_call_args (args : List Expr) (ctxt : Context) (alignment_offset : Int)
    (ctr : Nat) : Except String (List FInstr × Nat) :=
  match args with
  | [] => .ok ([], ctr)
  | a :: rest =>
    match compile_call_args rest ctxt alignment_offset ctr with
    | .error s => .error s
    | .ok (ris, c1) =>
      let arg_si :=
        ctxt.si + 1 + (rest.length : Int) + (if alignment_offset > 0 then 1 else 0)
      match compile_expr a { ctxt with si := arg_si } c1 with
      | .error s => .error s
      | .ok (ais, c2) =>
        .ok (ris ++ ais ++
             [⟨.Mov (.RegOff .RSP (arg_si * WORD_SIZE)) (.Reg .RAX),
               ctxt.indentation⟩], c2)

end

/-! ### A small-step machine for the emitted x86-64 instructions

Register and memory words are 64-bit two's-complement integers, modelled as
`Int` with explicit wrapping.  Bitwise operations go through the unsigned
64-bit representation so that every operation is executable by kernel
reduction. -/

/-- Wrap an integer into the signed 64-bit range.  (The powers of two are
written as numeral literals so that every definition evaluates by kernel
reduction.) -/
def wrap64 (n : Int) : Int :=
  (n + 9223372036854775808) % 18446744073709551616 - 9223372036854775808

/-- Wrap an integer into the signed 32-bit range (Rust `as i32`). -/
def wrap32 (n : Int) : Int := (n + 2147483648) % 4294967296 - 2147483648

/-- The unsigned 64-bit representation of a signed 64-bit value. -/
def toU64 (v : Int) : Nat := (v % 18446744073709551616).toNat

/-- The signed 64-bit value with a given unsigned 64-bit representation. -/
def ofU64 (n : Nat) : Int :=
  if (n : Int) < 9223372036854775808 then (n : Int) else (n : Int) - 18446744073709551616

/-- 64-bit bitwise and. -/
def and64 (a b : Int) : Int := ofU64 (Nat.land (toU64 a) (toU64 b))

/-- 64-bit bitwise or. -/
def or64 (a b : Int) : Int := ofU64 (Nat.lor (toU64 a) (toU64 b))

/-- 64-bit bitwise xor. -/
def xor64 (a b : Int) : Int := ofU64 (Nat.xor (toU64 a) (toU64 b))

/-- 64-bit bitwise complement. -/
def not64 (a : Int) : Int := ofU64 (18446744073709551615 - toU64 a)

/-- Arithmetic right shift (x86 `sar`): floor division by `2 ^ k`. -/
def sar64 (a : Int) (k : Nat) : Int := Int.fdiv a (2 ^ k)

/-- Machine state: registers, byte-addressed memory, and the three status
flags the emitted code branches on. -/
structure MState where
  regs : Reg → Int
  mem : Int → Int
  zf : Bool
  sf : Bool
  ovf : Bool

/-- Write a register. -/
def setReg (st : MState) (r : Reg) (v : Int) : MState :=
  { st with regs := fun r' => if r' = r then v else st.regs r' }

/-- Write a memory word. -/
def setMem (st : MState) (a v : Int) : MState :=
  { st with mem := fun a' => if a' = a then v else st.mem a' }

/-- Read an operand.  A `RegOff r off` operand addresses `r - off`
(offsets are subtracted, matching assembly.rs). -/
def readVal (st : MState) : Val → Int
  | .Reg r => st.regs r
  | .Imm n => n
  | .RegOff r off => st.mem (st.regs r - off)

/-- Write to an operand destination; an immediate destination is invalid. -/
def writeVal (st : MState) : Val → Int → Option MState
  | .Reg r, v => some (setReg st r v)
  | .RegOff r off, v => some (setMem st (st.regs r - off) v)
  | .Imm _, _ => none

/-- Behaviour of `call` instructions: the whole call-return round trip of
the named function, as a state transformer. -/
def Oracle : Type := String → MState → MState

/-- Result of one instruction step. -/
inductive StepRes where
  | next (st : MState)
  | jmp (l : String) (st : MState)
  | retd (st : MState)
  | stuck

/-- One instruction step.  Arithmetic sets ZF/SF from the wrapped result and
OF iff the exact result does not fit in 64 signed bits; bitwise operations
clear OF; a taken jump reports its target label. -/
def step (oracle : Oracle) (i : Instr) (st : MState) : StepRes :=
  match i with
  | .Mov dst src =>
    match writeVal st dst (readVal st src) with
    | some st' => .next st'
    | none => .stuck
  | .Add dst src =>
    let r := readVal st dst + readVal st src
    let w := wrap64 r
    match writeVal st dst w with
    | some st' =>
      .next { st' with zf := decide (w = 0), sf := decide (w < 0), ovf := decide (w ≠ r) }
    | none => .stuck
  | .Sub dst src =>
    let r := readVal st dst - readVal st src
    let w := wrap64 r
    match writeVal st dst w with
    | some st' =>
      .next { st' with zf := decide (w = 0), sf := decide (w < 0), ovf := decide (w ≠ r) }
    | none => .stuck
  | .Mul dst src =>
    let r := readVal st dst * readVal st src
    let w := wrap64 r
    match writeVal st dst w with
    | some st' =>
      .next { st' with zf := decide (w = 0), sf := decide (w < 0), ovf := decide (w ≠ r) }
    | none => .stuck
  | .Cmp v1 v2 =>
    let r := readVal st v1 - readVal st v2
    let w := wrap64 r
    .next { st with zf := decide (w = 0), sf := decide (w < 0), ovf := decide (w ≠ r) }
  | .Test v1 v2 =>
    let t := and64 (readVal st v1) (readVal st v2)
    .next { st with zf := decide (t = 0), sf := decide (t < 0), ovf := false }
  | .CMove dst src =>
    if st.zf then
      match writeVal st dst (readVal st src) with
      | some st' => .next st'
      | none => .stuck
    else .next st
  | .CMovg dst src =>
    if !st.zf && (st.sf == st.ovf) then
      match writeVal st dst (readVal st src) with
      | some st' => .next st'
      | none => .stuck
    else .next st
  | .CMovge dst src =>
    if st.sf == st.ovf then
      match writeVal st dst (readVal st src) with
      | some st' => .next st'
      | none => .stuck
    else .next st
  | .CMovl dst src =>
    if st.sf != st.ovf then
      match writeVal st dst (readVal st src) with
      | some st' => .next st'
      | none => .stuck
    else .next st
  | .CMovle dst src =>
    if st.zf || (st.sf != st.ovf) then
      match writeVal st dst (readVal st src) with
      | some st' => .next st'
      | none => .stuck
    else .next st
  | .Sar dst amount =>
    let t := sar64 (readVal st dst) (readVal st amount).toNat
    match writeVal st dst t with
    | some st' =>
      .next { st' with zf := decide (t = 0), sf := decide (t < 0), ovf := false }
    | none => .stuck
  | .And dst src =>
    let t := and64 (readVal st dst) (readVal st src)
    match writeVal st dst t with
    | some st' =>
      .next { st' with zf := decide (t = 0), sf := decide (t < 0), ovf := false }
    | none => .stuck
  | .Or dst src =>
    let t := or64 (readVal st dst) (readVal st src)
    match writeVal st dst t with
    | some st' =>
      .next { st' with zf := decide (t = 0), sf := decide (t < 0), ovf := false }
    | none => .stuck
  | .Xor dst src =>
    let t := xor64 (readVal st dst) (readVal st src)
    match writeVal st dst t with
    | some st' =>
      .next { st' with zf := decide (t = 0), sf := decide (t < 0), ovf := false }
    | none => .stuck
  | .Not dst =>
    match writeVal st dst (not64 (readVal st dst)) with
    | some st' => .next st'
    | none => .stuck
  | .Label _ => .next st
  | .Jump l => .jmp l st
  | .JumpEqual l => if st.zf then .jmp l st else .next st
  | .JumpNotEqual l => if st.zf then .next st else .jmp l st
  | .JumpNotZero l => if st.zf then .next st else .jmp l st
  | .JumpGreaterEqual l => if st.sf == st.ovf then .jmp l st else .next st
  | .JumpLess l => if st.sf != st.ovf then .jmp l st else .next st
  | .JumpOverflow l => if st.ovf then .jmp l st else .next st
  | .Push v =>
    let value := readVal st v
    let sp := st.regs .RSP - 8
    .next (setMem (setReg st .RSP sp) sp value)
  | .Pop v =>
    let value := st.mem (st.regs .RSP)
    let st1 := setReg st .RSP (st.regs .RSP + 8)
    match writeVal st1 v value with
    | some st' => .next st'
    | none => .stuck
  | .Call l => .next (oracle l st)
  | .Ret => .retd st

/-- Result of running a straight-line instruction list. -/
inductive RunRes where
  | fin (st : MState)
  | jmp (l : String) (st : MState)
  | retd (st : MState)
  | stuck

/-- Run a straight-line instruction list: fall through labels, stop at the
first taken jump (reporting its target), at `ret`, or when an instruction is
invalid. -/
def runStraight (oracle : Oracle) : List Instr → MState → RunRes
  | [], st => .fin st
  | i :: rest, st =>
    match step oracle i st with
    | .next st' => runStraight oracle rest st'
    | .jmp l st' => .jmp l st'
    | .retd st' => .retd st'
    | .stuck => .stuck

/-- The label of the taken jump that ended a straight-line run, if any. -/
def runJumpLabel (oracle : Oracle) (l : List Instr) (st : MState) : Option String :=
  match runStraight oracle l st with
  | .jmp lab _ => some lab
  | _ => none

/-- An oracle for concrete executions: every call leaves the state
unchanged except that it clobbers the caller-saved registers RAX and RDI
with arbitrary markers. -/
def clobberOracle : Oracle :=
  fun _ st => setReg (setReg st .RAX 11111) .RDI 22222

/-! ### `src/runtime/start.rs` -/

/-- `snek_error` from start.rs, as the pair (line written to standard error,
process exit code).  `std::process::exit(errcode as i32)` truncates the
`i64` code to `i32`. -/
def snek_error (errcode : Int) : String × Int :=
  (if errcode = 1 then "an error occurred: numeric overflow"
   else if errcode = 2 then "an error occurred: invalid argument (incompatible types)"
   else if errcode = 3 then "an error occurred: index out of bounds"
   else if errcode = 4 then "an error occurred: invalid vector address"
   else if errcode = 5 then "an error occurred: invalid vector offset"
   else if errcode = 6 then "an error occurred: vector address out of bounds"
   else "Unknown error code: " ++ toString errcode,
   wrap32 errcode)

/-- `snek_equals_helper` from start.rs.  The heap is a byte-addressed word
map, the `&mut HashSet` of visited pointer pairs is threaded as a list
without duplicates, and the unbounded Rust recursion is given fuel (`none`
means the fuel ran out, which real executions never hit).  Reads
`addr.add(1 + i)` become `heap (addr + 8 * (i + 1))`. -/
def snek_equals_helper (heap : Int → Int) :
    Nat → Int → Int → List (Int × Int) → Option (Int × List (Int × Int))
  | 0, _, _, _ => none
  | fuel + 1, val1, val2, seen =>
    if and64 val1 3 = 1 ∧ and64 val2 3 = 1 then
      if val1 = val2 then some (7, seen.erase (val1, val2))
      else if val1 = 1 ∨ val2 = 1 then some (3, seen.erase (val1, val2))
      else if (val1, val2) ∈ seen then some (7, seen.erase (val1, val2))
      else
        let seen1 := (val1, val2) :: seen
        let addr1 := val1 - 1
        let addr2 := val2 - 1
        let size1 := heap addr1
        let size2 := heap addr2
        if size1 ≠ size2 then some (3, seen1)
        else
          -- `for i in 0..size1`, with an early `return FALSE` modelled by
          -- freezing the accumulator
          let r := (List.range size1.toNat).foldl
            (fun acc i =>
              match acc with
              | none => none
              | some (false, sn) => some (false, sn)
              | some (true, sn) =>
                match snek_equals_helper heap fuel (heap (addr1 + 8 * ((i : Int) + 1)))
                    (heap (addr2 + 8 * ((i : Int) + 1))) sn with
                | none => none
                | some (res, sn') =>
                  if res = 3 then some (false, sn') else some (true, sn'))
            (some (true, seen1))
          match r with
          | none => none
          | some (false, sn) => some (3, sn)
          | some (true, sn) => some (7, sn.erase (val1, val2))
    else
      if val1 = val2 then some (7, seen.erase (val1, val2))
      else some (3, seen.erase (val1, val2))

/-- `snek_equals` from start.rs: the helper started with an empty visited
set, returning only the value. -/
def snek_equals (heap : Int → Int) (fuel : Nat) (val1 val2 : Int) : Option Int :=
  (snek_equals_helper heap fuel val1 val2 []).map Prod.fst

/-- `snek_str` from start.rs.  The visited set is threaded as a list; the
header read `addr.read() as usize` is modelled as `(heap addr).toNat`,
faithful for the non-negative headers that occur (a negative header word
would reinterpret as a huge unsigned count in Rust). -/
def snek_str (heap : Int → Int) :
    Nat → Int → List Int → Option (String × List Int)
  | 0, _, _ => none
  | fuel + 1, val, seen =>
    if val = 7 then some ("true", seen)
    else if val = 3 then some ("false", seen)
    else if Int.tmod val 2 = 0 then some (toString (val / 2), seen)
    else if val = 1 then some ("nil", seen)
    else if and64 val 1 = 1 then
      if seen.contains val then some ("[...]", seen)
      else
        let seen1 := val :: seen
        let addr := val - 1
        let size := (heap addr).toNat
        -- `for i in 1..size + 1`, appending ", " after every element but
        -- the last
        let r := (List.range size).foldl
          (fun acc i =>
            match acc with
            | none => none
            | some (s, sn) =>
              match snek_str heap fuel (heap (addr + 8 * ((i : Int) + 1))) sn with
              | none => none
              | some (es, sn') =>
                some (s ++ es ++ (if i + 1 < size then ", " else ""), sn'))
          (some ("[", seen1))
        match r with
        | none => none
        | some (s, sn) => some (s ++ "]", sn.erase val)
    else some ("Unknown value: " ++ toString val, seen)

/-! ### `src/src/parser.rs` -/

/-- An S-expression atom of the `sexp` crate.  The crate's float atom
`F(f64)` is omitted: floating point is not modelled and no code path
considered here consumes it. -/
inductive Atom where
  | I (n : Int)
  | S (s : String)
deriving DecidableEq, Repr

/-- An S-expression of the `sexp` crate. -/
inductive Sexp where
  | Atom (a : Atom)
  | List (l : List Sexp)
deriving Repr

/-- `is_keyword` from parser.rs: the exact reserved-word list of the match
at lines 333-345. -/
def is_keyword (s : String) : Bool :=
  ["true", "false", "input", "nil",
   "add1", "sub1", "isnum", "isbool", "print",
   "let", "set!",
   "if", "block", "loop", "break",
   "fun",
   "vec", "vec-get", "vec-set!",
   "+", "-", "*", "<", "=", "<=", ">=", "=="].contains s

/-- `parse_param` from parser.rs: accepts a symbol atom as a function
parameter name unless it is a keyword. -/
def parse_param : Sexp → Except String String
  | .Atom (.S name) =>
    if is_keyword name then
      .error ("Invalid: parameter " ++ name ++ " is a reserved keyword")
    else .ok name
  | _ => .error "Invalid function parameter"

/-! ### Observation helpers and sample inputs for the machine runs -/

/-- The value of a register when a straight-line run falls through. -/
def finRegs (res : RunRes) (r : Reg) : Option Int :=
  match res with
  | .fin st => some (st.regs r)
  | _ => none

/-- The value of a memory word when a straight-line run falls through. -/
def finMem (res : RunRes) (a : Int) : Option Int :=
  match res with
  | .fin st => some (st.mem a)
  | _ => none

/-- The whole memory when a straight-line run falls through (zero
otherwise). -/
def finMemFun (res : RunRes) : Int → Int :=
  match res with
  | .fin st => st.mem
  | _ => fun _ => 0

/-- A sample compilation context: the context `compile_program` hands to the
main expression (stack index 2, empty environments, no surrounding loop). -/
def ctxt0 : Context :=
  { si := 2, env := [], break_label := "", indentation := 1,
    function_env := [], compiling_main := true }

/-- A sample machine state: stack pointer at `1048576`, heap pointer (R15)
at `4096`, all other registers, all memory and all flags zero — the shape of
the state in which `our_code_starts_here` starts running emitted code. -/
def st0 : MState :=
  { regs := fun r => if r = .RSP then 1048576 else if r = .R15 then 4096 else 0,
    mem := fun _ => 0, zf := false, sf := false, ovf := false }

/-- The instructions `compile_expr` emits for `(index nil 0)` in `ctxt0`
(checked against `compile_expr` below). -/
def indexNilCode : List FInstr :=
  [⟨.Mov (.Reg .RAX) (.Imm 1), 1⟩,
   ⟨.Mov (.Reg .RBX) (.Reg .RAX), 1⟩,
   ⟨.And (.Reg .RBX) (.Imm 1), 1⟩,
   ⟨.Cmp (.Reg .RBX) (.Imm 1), 1⟩,
   ⟨.JumpNotEqual NOT_HEAP_ADDRESS_LABEL, 1⟩,
   ⟨.Mov (.RegOff .RSP 16) (.Reg .RAX), 1⟩,
   ⟨.Mov (.Reg .RAX) (.Imm 0), 1⟩,
   ⟨.Mov (.Reg .RBX) (.Reg .RAX), 1⟩,
   ⟨.Not (.Reg .RBX), 1⟩,
   ⟨.And (.Reg .RBX) (.Imm 1), 1⟩,
   ⟨.Cmp (.Reg .RBX) (.Imm 1), 1⟩,
   ⟨.JumpNotEqual NOT_INDEX_OFFSET_LABEL, 1⟩,
   ⟨.Mov (.Reg .RBX) (.RegOff .RSP 16), 1⟩,
   ⟨.Sub (.Reg .RBX) (.Imm 1), 1⟩,
   ⟨.Mov (.Reg .R12) (.RegOff .RBX 0), 1⟩,
   ⟨.Cmp (.Reg .RAX) (.Reg .R12), 1⟩,
   ⟨.JumpGreaterEqual INDEX_OUT_OF_BOUNDS_LABEL, 1⟩,
   ⟨.Cmp (.Reg .RAX) (.Imm 0), 1⟩,
   ⟨.JumpLess INDEX_OUT_OF_BOUNDS_LABEL, 1⟩,
   ⟨.Sar (.Reg .RAX) (.Imm 1), 1⟩,
   ⟨.Add (.Reg .RAX) (.Imm 1), 1⟩,
   ⟨.Mul (.Reg .RAX) (.Imm 8), 1⟩,
   ⟨.Add (.Reg .RBX) (.Reg .RAX), 1⟩,
   ⟨.Mov (.Reg .RAX) (.RegOff .RBX 0), 1⟩]

/-- The instructions `compile_expr` emits for `(tuple 10 20)` in `ctxt0`
(checked against `compile_expr` below). -/
def tupPairCode : List FInstr :=
  [⟨.Mov (.RegOff .RSP 16) (.Reg .R15), 1⟩,
   ⟨.Mov (.Reg .R12) (.Imm 4), 1⟩,
   ⟨.Mov (.RegOff .R15 0) (.Reg .R12), 1⟩,
   ⟨.Add (.Reg .R15) (.Imm 8), 1⟩,
   ⟨.Mov (.Reg .RAX) (.Imm 20), 1⟩,
   ⟨.Mov (.RegOff .R15 0) (.Reg .RAX), 1⟩,
   ⟨.Add (.Reg .R15) (.Imm 8), 1⟩,
   ⟨.Mov (.Reg .RAX) (.Imm 40), 1⟩,
   ⟨.Mov (.RegOff .R15 0) (.Reg .RAX), 1⟩,
   ⟨.Add (.Reg .R15) (.Imm 8), 1⟩,
   ⟨.Mov (.Reg .RAX) (.RegOff .RSP 16), 1⟩,
   ⟨.Add (.Reg .RAX) (.Imm 1), 1⟩]

/-- The instructions `compile_expr` emits for `(tuple (tuple 1 2) nil)` in
`ctxt0` (checked against `compile_expr` below). -/
def tupNestedCode : List FInstr :=
  [⟨.Mov (.RegOff .RSP 16) (.Reg .R15), 1⟩,
   ⟨.Mov (.Reg .R12) (.Imm 4), 1⟩,
   ⟨.Mov (.RegOff .R15 0) (.Reg .R12), 1⟩,
   ⟨.Add (.Reg .R15) (.Imm 8), 1⟩,
   ⟨.Mov (.RegOff .RSP 24) (.Reg .R15), 1⟩,
   ⟨.Mov (.Reg .R12) (.Imm 4), 1⟩,
   ⟨.Mov (.RegOff .R15 0) (.Reg .R12), 1⟩,
   ⟨.Add (.Reg .R15) (.Imm 8), 1⟩,
   ⟨.Mov (.Reg .RAX) (.Imm 2), 1⟩,
   ⟨.Mov (.RegOff .R15 0) (.Reg .RAX), 1⟩,
   ⟨.Add (.Reg .R15) (.Imm 8), 1⟩,
   ⟨.Mov (.Reg .RAX) (.Imm 4), 1⟩,
   ⟨.Mov (.RegOff .R15 0) (.Reg .RAX), 1⟩,
   ⟨.Add (.Reg .R15) (.Imm 8), 1⟩,
   ⟨.Mov (.Reg .RAX) (.RegOff .RSP 24), 1⟩,
   ⟨.Add (.Reg .RAX) (.Imm 1), 1⟩,
   ⟨.Mov (.RegOff .R15 0) (.Reg .RAX), 1⟩,
   ⟨.Add (.Reg .R15) (.Imm 8), 1⟩,
   ⟨.Mov (.Reg .RAX) (.Imm 1), 1⟩,
   ⟨.Mov (.RegOff .R15 0) (.Reg .RAX), 1⟩,
   ⟨.Add (.Reg .R15) (.Imm 8), 1⟩,
   ⟨.Mov (.Reg .RAX) (.RegOff .RSP 16), 1⟩,
   ⟨.Add (.Reg .RAX) (.Imm 1), 1⟩]

/-- The machine state after `is_number`'s four instructions (mov/not/and/cmp)
run from `st`. -/
def isNumberEnd (st : MState) : MState :=
  let st1 := setReg st .RBX (st.regs .RAX)
  let st2 := setReg st1 .RBX (not64 (st1.regs .RBX))
  let t3 := and64 (st2.regs .RBX) 1
  let st3 :=
    { setReg st2 .RBX t3 with zf := decide (t3 = 0), sf := decide (t3 < 0), ovf := false }
  let r4 := st3.regs .RBX - 1
  let w4 := wrap64 r4
  { st3 with zf := decide (w4 = 0), sf := decide (w4 < 0), ovf := decide (w4 ≠ r4) }

/-- The machine state after `is_heap_address`'s three instructions
(mov/and/cmp) run from `st`. -/
def heapAddrEnd (st : MState) : MState :=
  let st1 := setReg st .RBX (st.regs .RAX)
  let t2 := and64 (st1.regs .RBX) 1
  let st2 :=
    { setReg st1 .RBX t2 with zf := decide (t2 = 0), sf := decide (t2 < 0), ovf := false }
  let r3 := st2.regs .RBX - 1
  let w3 := wrap64 r3
  { st2 with zf := decide (w3 = 0), sf := decide (w3 < 0), ovf := decide (w3 ≠ r3) }

/-- The machine state after the first four bound-check instructions of the
`Expr::Index` tail (reload pointer, clear tag, read header, compare) run
from `st` with stack index `si`. -/
def idxB1End (st : MState) (si : Int) : MState :=
  let st1 := setReg st .RBX (st.mem (st.regs .RSP - si * 8))
  let r2 := st1.regs .RBX - 1
  let w2 := wrap64 r2
  let st2 :=
    { setReg st1 .RBX w2 with
        zf := decide (w2 = 0), sf := decide (w2 < 0), ovf := decide (w2 ≠ r2) }
  let st3 := setReg st2 .R12 (st2.mem (st2.regs .RBX - 0))
  let r4 := st3.regs .RAX - st3.regs .R12
  let w4 := wrap64 r4
  { st3 with zf := decide (w4 = 0), sf := decide (w4 < 0), ovf := decide (w4 ≠ r4) }

/-- The machine state after `cmp rax, 0` runs from `st`. -/
def cmpRaxZeroEnd (st : MState) : MState :=
  let r := st.regs .RAX - 0
  let w := wrap64 r
  { st with zf := decide (w = 0), sf := decide (w < 0), ovf := decide (w ≠ r) }

/-- The machine state after the five element-load instructions of the
`Expr::Index` tail (sar/add/imul/add/load) run from `st`. -/
def idxLoadEnd (st : MState) : MState :=
  let t1 := sar64 (st.regs .RAX) 1
  let st1 :=
    { setReg st .RAX t1 with
        zf := decide (t1 = 0), sf := decide (t1 < 0), ovf := false }
  let r2 := st1.regs .RAX + 1
  let w2 := wrap64 r2
  let st2 :=
    { setReg st1 .RAX w2 with
        zf := decide (w2 = 0), sf := decide (w2 < 0), ovf := decide (w2 ≠ r2) }
  let r3 := st2.regs .RAX * 8
  let w3 := wrap64 r3
  let st3 :=
    { setReg st2 .RAX w3 with
        zf := decide (w3 = 0), sf := decide (w3 < 0), ovf := decide (w3 ≠ r3) }
  let r4 := st3.regs .RBX + st3.regs .RAX
  let w4 := wrap64 r4
  let st4 :=
    { setReg st3 .RBX w4 with
        zf := decide (w4 = 0), sf := decide (w4 < 0), ovf := decide (w4 ≠ r4) }
  setReg st4 .RAX (st4.mem (st4.regs .RBX - 0))

/-- The bound-check-and-load tail of the code `compile_expr` emits for an
`Expr::Index` expression, as bare instructions, parameterised by the stack
index of the spilled receiver. -/
def indexTailInstrs (si : Int) : List Instr :=
  [.Mov (.Reg .RBX) (.RegOff .RSP (si * 8)),
   .Sub (.Reg .RBX) (.Imm 1),
   .Mov (.Reg .R12) (.RegOff .RBX 0),
   .Cmp (.Reg .RAX) (.Reg .R12),
   .JumpGreaterEqual INDEX_OUT_OF_BOUNDS_LABEL,
   .Cmp (.Reg .RAX) (.Imm 0),
   .JumpLess INDEX_OUT_OF_BOUNDS_LABEL,
   .Sar (.Reg .RAX) (.Imm 1),
   .Add (.Reg .RAX) (.Imm 1),
   .Mul (.Reg .RAX) (.Imm 8),
   .Add (.Reg .RBX) (.Reg .RAX),
   .Mov (.Reg .RAX) (.RegOff .RBX 0)]

/-- A concrete start state for exercising the index tail: the stack slot at
`rsp - 16` holds the tagged pointer 4097, the header word at 4096 holds 6
(a three-element tuple), and the second element (word 2) at 4112 holds 999. -/
def stC4 : MState :=
  { regs := fun r => if r = .RSP then 1048576 else if r = .RAX then 2 else 0,
    mem := fun a =>
      if a = 1048560 then 4097 else if a = 4096 then 6 else
      if a = 4112 then 999 else 0,
    zf := false, sf := false, ovf := false }

/-- The six bookkeeping instructions the `Expr::UnOp(Op1::Print, e)` arm
emits after the code for `e`: spill RDI, move the argument, adjust RSP,
call, readjust RSP, reload RDI. -/
def printTailInstrs (si : Int) : List Instr :=
  let alignment_offset : Int := if Int.tmod (si + 1) 2 ≠ 0 then WORD_SIZE else 0
  let rdi_offset := si * WORD_SIZE + alignment_offset
  let rsp_offset := si * WORD_SIZE + alignment_offset
  [.Mov (.RegOff .RSP rdi_offset) (.Reg .RDI), .Mov (.Reg .RDI) (.Reg .RAX),
   .Sub (.Reg .RSP) (.Imm rsp_offset), .Call "snek_print",
   .Add (.Reg .RSP) (.Imm rsp_offset), .Mov (.Reg .RDI) (.RegOff .RSP rdi_offset)]

/-- The alignment word the `Expr::FunCall` arm inserts when
`(si + args.len() + 1) % 2 != 0`. -/
def callAlign (si : Int) (nargs : Nat) : Int :=
  if Int.tmod (si + (nargs : Int) + 1) 2 ≠ 0 then WORD_SIZE else 0

/-- The four instructions the `Expr::FunCall` arm emits after the argument
code: adjust RSP, call, reload RDI from below the moved stack pointer,
readjust RSP. -/
def callTailInstrs (si : Int) (nargs : Nat) (funname : String) : List Instr :=
  let rsp_offset := (si + (nargs : Int)) * WORD_SIZE + callAlign si nargs
  [.Sub (.Reg .RSP) (.Imm rsp_offset), .Call funname,
   .Mov (.Reg .RDI) (.RegOff .RSP (-((nargs : Int) * WORD_SIZE))),
   .Add (.Reg .RSP) (.Imm rsp_offset)]

/-- End state of `sub rsp, off`. -/
def subRspEnd (off : Int) (st : MState) : MState :=
  { setReg st .RSP (wrap64 (st.regs .RSP - off)) with
    zf := decide (wrap64 (st.regs .RSP - off) = 0),
    sf := decide (wrap64 (st.regs .RSP - off) < 0),
    ovf := decide (wrap64 (st.regs .RSP - off) ≠ st.regs .RSP - off) }

/-- End state of `add rsp, off`. -/
def addRspEnd (off : Int) (st : MState) : MState :=
  { setReg st .RSP (wrap64 (st.regs .RSP + off)) with
    zf := decide (wrap64 (st.regs .RSP + off) = 0),
    sf := decide (wrap64 (st.regs .RSP + off) < 0),
    ovf := decide (wrap64 (st.regs .RSP + off) ≠ st.regs .RSP + off) }

/-- A start state with a marker value 777 in RDI and in the stack slot the
call sequence reloads from (`rsp - 16` for `si = 2` and three arguments). -/
def stC9 : MState :=
  { regs := fun r => if r = .RSP then 1048576 else if r = .RDI then 777 else 0,
    mem := fun a => if a = 1048560 then 777 else 0,
    zf := false, sf := false, ovf := false }

/-! ### Helper lemmas: machine-state projections, bit arithmetic, runs -/

theorem regs_setReg (st : MState) (r : Reg) (v : Int) (r' : Reg) :
    (setReg st r v).regs r' = if r' = r then v else st.regs r' := rfl

theorem mem_setReg (st : MState) (r : Reg) (v : Int) :
    (setReg st r v).mem = st.mem := rfl

theorem regs_setMem (st : MState) (a v : Int) :
    (setMem st a v).regs = st.regs := rfl

theorem mem_setMem (st : MState) (a v : Int) (a' : Int) :
    (setMem st a v).mem a' = if a' = a then v else st.mem a' := rfl

theorem and64_one (v : Int) : and64 v 1 = v % 2 := by
  have h0 : toU64 1 = 1 := by decide
  have h1 : (toU64 v).land 1 = toU64 v % 2 := Nat.and_one_is_mod (toU64 v)
  have h2 : ((v % 18446744073709551616) % 2 : Int) = v % 2 :=
    Int.emod_emod_of_dvd v (by norm_num)
  unfold and64
  rw [h0, h1]
  unfold ofU64 toU64
  split <;> omega

theorem and64_three (v : Int) : and64 v 3 = v % 4 := by
  have h0 : toU64 3 = 3 := by decide
  have h1 : (toU64 v).land 3 = toU64 v % 4 := by
    have := Nat.and_pow_two_sub_one_eq_mod (toU64 v) 2
    simpa using this
  have h2 : ((v % 18446744073709551616) % 4 : Int) = v % 4 :=
    Int.emod_emod_of_dvd v (by norm_num)
  unfold and64
  rw [h0, h1]
  unfold ofU64 toU64
  split <;> omega

theorem not64_eq (v : Int) (h1 : -9223372036854775808 ≤ v)
    (h2 : v < 9223372036854775808) : not64 v = -v - 1 := by
  unfold not64 ofU64 toU64
  split <;> omega

theorem wrap64_id (n : Int) (h1 : -9223372036854775808 ≤ n)
    (h2 : n < 9223372036854775808) : wrap64 n = n := by
  unfold wrap64
  omega

theorem sar64_double (i : Int) : sar64 (2 * i) 1 = i := by
  unfold sar64
  rw [pow_one]
  exact Int.mul_fdiv_cancel_left i (by norm_num)

theorem run_append (oracle : Oracle) (l1 l2 : List Instr) (st : MState) :
    runStraight oracle (l1 ++ l2) st =
      match runStraight oracle l1 st with
      | .fin st' => runStraight oracle l2 st'
      | .jmp l st' => .jmp l st'
      | .retd st' => .retd st'
      | .stuck => .stuck := by
  induction l1 generalizing st with
  | nil => simp [runStraight]
  | cons i rest ih =>
    simp only [List.cons_append, runStraight]
    cases step oracle i st with
    | next st' => exact ih st'
    | jmp l st' => rfl
    | retd st' => rfl
    | stuck => rfl

theorem run_cons_next (oracle : Oracle) (i : Instr) (rest : List Instr)
    (st st' : MState) (h : step oracle i st = .next st') :
    runStraight oracle (i :: rest) st = runStraight oracle rest st' := by
  rw [runStraight, h]

theorem run_cons_jmp (oracle : Oracle) (i : Instr) (rest : List Instr)
    (st st' : MState) (l : String) (h : step oracle i st = .jmp l st') :
    runStraight oracle (i :: rest) st = .jmp l st' := by
  rw [runStraight, h]

theorem step_jne_stay (oracle : Oracle) (l : String) (st : MState)
    (h : st.zf = true) : step oracle (.JumpNotEqual l) st = .next st := by
  simp [step, h]

theorem step_jne_taken (oracle : Oracle) (l : String) (st : MState)
    (h : st.zf = false) : step oracle (.JumpNotEqual l) st = .jmp l st := by
  simp [step, h]

theorem step_jge_stay (oracle : Oracle) (l : String) (st : MState)
    (h : (st.sf == st.ovf) = false) : step oracle (.JumpGreaterEqual l) st = .next st := by
  simp [step, h]

theorem step_jge_taken (oracle : Oracle) (l : String) (st : MState)
    (h : (st.sf == st.ovf) = true) : step oracle (.JumpGreaterEqual l) st = .jmp l st := by
  simp [step, h]

theorem step_jl_stay (oracle : Oracle) (l : String) (st : MState)
    (h : (st.sf != st.ovf) = false) : step oracle (.JumpLess l) st = .next st := by
  simp [step, h]

theorem step_jl_taken (oracle : Oracle) (l : String) (st : MState)
    (h : (st.sf != st.ovf) = true) : step oracle (.JumpLess l) st = .jmp l st := by
  simp [step, h]

theorem step_jo_stay (oracle : Oracle) (l : String) (st : MState)
    (h : st.ovf = false) : step oracle (.JumpOverflow l) st = .next st := by
  simp [step, h]

theorem step_jo_taken (oracle : Oracle) (l : String) (st : MState)
    (h : st.ovf = true) : step oracle (.JumpOverflow l) st = .jmp l st := by
  simp [step, h]

theorem is_number_run (oracle : Oracle) (ctxt : Context) (st : MState) :
    runStraight oracle ((is_number ctxt).map FInstr.instr) st = .fin (isNumberEnd st) := rfl

theorem is_heap_address_run (oracle : Oracle) (ctxt : Context) (st : MState) :
    runStraight oracle ((is_heap_address ctxt).map FInstr.instr) st =
      .fin (heapAddrEnd st) := rfl

/-! ### Claim theorems -/

/-- C1: the claim says `instr_to_str` is total on everything `compile_expr`
emits, in particular on `Mov`s with a RBX-displacement operand emitted for
index expressions.  In fact `compile_expr` on `(index nil 0)` emits
`mov r12, [rbx - 0]` and `mov rax, [rbx - 0]`, and `val_to_str` has no arm
for a RBX register-with-offset operand, so `instr_to_str` hits the
catch-all panic (modelled as `none`) on both. -/
theorem C1_renderer_panics_on_index_movs :
    compile_expr (.Index .Nil (.Number 0)) ctxt0 0 = .ok (indexNilCode, 0) ∧
    Instr.Mov (.Reg .R12) (.RegOff .RBX 0) ∈ indexNilCode.map FInstr.instr ∧
    Instr.Mov (.Reg .RAX) (.RegOff .RBX 0) ∈ indexNilCode.map FInstr.instr ∧
    instr_to_str (.Mov (.Reg .R12) (.RegOff .RBX 0)) = none ∧
    instr_to_str (.Mov (.Reg .RAX) (.RegOff .RBX 0)) = none ∧
    val_to_str (.RegOff .RBX 0) = none := by
  refine ⟨?_, by decide, by decide, rfl, rfl, rfl⟩
  simp [compile_expr, ctxt0, indexNilCode, int_overflow, I63_MIN, I63_MAX, NIL_VAL,
    WORD_SIZE, is_heap_address_with_error, is_heap_address, is_number]

/-- C5 counterexample: rendering an immediate-to-memory move yields plain
`mov [rsp - 8], 0` and the text does not contain the `qword` size
specifier the claim requires. -/
theorem C5_counterexample_no_qword :
    instr_to_str (.Mov (.RegOff .RSP 8) (.Imm 0)) = some "mov [rsp - 8], 0" ∧
    containsSubstr "mov [rsp - 8], 0" "qword" = false := by
  exact ⟨rfl, by decide⟩

/-- C5 amended: for every `Mov` whose destination is an RSP-displacement
memory operand (positive offset, as all compiler-emitted stack slots are)
and whose source is an immediate, the renderer emits exactly
`mov [rsp - <off>], <imm>` — with no size specifier at all. -/
theorem C5_amended_imm_to_mem_has_no_size_specifier (off n : Int) (h : 0 < off) :
    instr_to_str (.Mov (.RegOff .RSP off) (.Imm n)) =
      some ("mov [rsp - " ++ toString off ++ "], " ++ toString n) := by
  simp only [instr_to_str, render2, val_to_str, if_pos h, String.append_assoc]
  rw [← String.append_assoc "mov" " ", ← String.append_assoc ("mov" ++ " ") "[rsp - "]
  rfl

/-- C5 amended, witness at `off = 16`, `n = 7`. -/
theorem C5_amended_witness :
    (0 : Int) < 16 ∧
    instr_to_str (.Mov (.RegOff .RSP 16) (.Imm 7)) =
      some ("mov [rsp - " ++ toString (16 : Int) ++ "], " ++ toString (7 : Int)) :=
  ⟨by norm_num, C5_amended_imm_to_mem_has_no_size_specifier 16 7 (by norm_num)⟩

/-- C6: for every error code `c` in `1..6`, `snek_error c` writes
`an error occurred: <message>` with the claimed message table to standard
error and exits with code `c`. -/
theorem C6_snek_error_messages_and_exit_code (c : Int) (h1 : 1 ≤ c) (h2 : c ≤ 6) :
    snek_error c =
      ("an error occurred: " ++
        (if c = 1 then "numeric overflow"
         else if c = 2 then "invalid argument (incompatible types)"
         else if c = 3 then "index out of bounds"
         else if c = 4 then "invalid vector address"
         else if c = 5 then "invalid vector offset"
         else "vector address out of bounds"), c) := by
  interval_cases c <;> decide

/-- C6 witness at `c = 3`. -/
theorem C6_witness :
    (1 : Int) ≤ 3 ∧ (3 : Int) ≤ 6 ∧
    snek_error 3 =
      ("an error occurred: " ++
        (if (3 : Int) = 1 then "numeric overflow"
         else if (3 : Int) = 2 then "invalid argument (incompatible types)"
         else if (3 : Int) = 3 then "index out of bounds"
         else if (3 : Int) = 4 then "invalid vector address"
         else if (3 : Int) = 5 then "invalid vector offset"
         else "vector address out of bounds"), 3) :=
  ⟨by norm_num, by norm_num, C6_snek_error_messages_and_exit_code 3 (by norm_num) (by norm_num)⟩

/-- C8 counterexample: `isvec`, `vec-len`, `make-vec` and `>` are missing
from `is_keyword`, and `>` is accepted as a function-parameter identifier by
`parse_param` instead of being rejected. -/
theorem C8_counterexample_missing_keywords :
    is_keyword "isvec" = false ∧ is_keyword "vec-len" = false ∧
    is_keyword "make-vec" = false ∧ is_keyword ">" = false ∧
    parse_param (.Atom (.S ">")) = .ok ">" := by
  exact ⟨by decide, by decide, by decide, by decide, rfl⟩

/-- C8 amended: the reserved words the parser actually rejects are exactly
the 27 words of `is_keyword`'s list — all reserved words of the claim
except `isvec`, `vec-len`, `make-vec` and `>`, which `is_keyword` omits and
`parse_param` therefore accepts as identifiers. -/
theorem C8_amended_keyword_list :
    ((["true", "false", "input", "nil", "add1", "sub1", "isnum", "isbool", "print",
       "let", "set!", "if", "block", "loop", "break", "fun", "vec", "vec-get",
       "vec-set!", "+", "-", "*", "<", "=", "<=", ">=", "=="].all
        (fun s => is_keyword s)) = true) ∧
    ((["isvec", "vec-len", "make-vec", ">"].all (fun s => !(is_keyword s))) = true) ∧
    parse_param (.Atom (.S "isvec")) = .ok "isvec" ∧
    parse_param (.Atom (.S "vec-len")) = .ok "vec-len" ∧
    parse_param (.Atom (.S "make-vec")) = .ok "make-vec" ∧
    parse_param (.Atom (.S ">")) = .ok ">" ∧
    parse_param (.Atom (.S "vec")) =
      .error "Invalid: parameter vec is a reserved keyword" := by
  exact ⟨by decide, by decide, rfl, rfl, rfl, rfl, rfl⟩

/-- C10: for tagged words `a`, `b` that are not both in the pointer class
(low two bits `01`), `snek_equals_helper` — and hence `snek_equals` —
returns `true` (7) exactly when `a = b` as words and `false` (3) otherwise,
removing the pair from the visited set and never signalling an error. -/
theorem C10_snek_equals_reference_equality (heap : Int → Int) (fuel : Nat)
    (v1 v2 : Int) (seen : List (Int × Int)) (h : ¬(v1 % 4 = 1 ∧ v2 % 4 = 1)) :
    snek_equals_helper heap (fuel + 1) v1 v2 seen =
      some ((if v1 = v2 then 7 else 3), seen.erase (v1, v2)) ∧
    snek_equals heap (fuel + 1) v1 v2 = some (if v1 = v2 then 7 else 3) := by
  have hc : ¬(and64 v1 3 = 1 ∧ and64 v2 3 = 1) := by
    rw [and64_three, and64_three]
    exact h
  have hmain : snek_equals_helper heap (fuel + 1) v1 v2 seen =
      some ((if v1 = v2 then 7 else 3), seen.erase (v1, v2)) := by
    rw [snek_equals_helper]
    rw [if_neg hc]
    by_cases hv : v1 = v2
    · simp [hv]
    · simp [hv]
  refine ⟨hmain, ?_⟩
  unfold snek_equals
  rw [show snek_equals_helper heap (fuel + 1) v1 v2 [] =
      some ((if v1 = v2 then 7 else 3), ([] : List (Int × Int)).erase (v1, v2)) from ?_]
  · simp
  · rw [snek_equals_helper, if_neg hc]
    by_cases hv : v1 = v2
    · simp [hv]
    · simp [hv]

theorem run_append_fin (oracle : Oracle) (l1 l2 : List Instr) (st st1 : MState)
    (h : runStraight oracle l1 st = .fin st1) :
    runStraight oracle (l1 ++ l2) st = runStraight oracle l2 st1 := by
  rw [run_append, h]

theorem run_append_jmp (oracle : Oracle) (l1 l2 : List Instr) (st st1 : MState)
    (lab : String) (h : runStraight oracle l1 st = .jmp lab st1) :
    runStraight oracle (l1 ++ l2) st = .jmp lab st1 := by
  rw [run_append, h]

theorem isNumberEnd_rax (st : MState) : (isNumberEnd st).regs .RAX = st.regs .RAX := rfl

theorem isNumberEnd_rsp (st : MState) : (isNumberEnd st).regs .RSP = st.regs .RSP := rfl

theorem isNumberEnd_mem (st : MState) : (isNumberEnd st).mem = st.mem := rfl

theorem isNumberEnd_zf (st : MState) :
    (isNumberEnd st).zf = decide (wrap64 (and64 (not64 (st.regs .RAX)) 1 - 1) = 0) := by
  simp [isNumberEnd, setReg]

theorem isNumberEnd_zf_even (st : MState) (h1 : -9223372036854775808 ≤ st.regs .RAX)
    (h2 : st.regs .RAX < 9223372036854775808) (heven : st.regs .RAX % 2 = 0) :
    (isNumberEnd st).zf = true := by
  rw [isNumberEnd_zf, not64_eq _ h1 h2, and64_one]
  have hm : (-(st.regs .RAX) - 1) % 2 = 1 := by omega
  rw [hm]
  norm_num
  exact wrap64_id 0 (by norm_num) (by norm_num)

theorem isNumberEnd_zf_odd (st : MState) (h1 : -9223372036854775808 ≤ st.regs .RAX)
    (h2 : st.regs .RAX < 9223372036854775808) (hodd : st.regs .RAX % 2 = 1) :
    (isNumberEnd st).zf = false := by
  rw [isNumberEnd_zf, not64_eq _ h1 h2, and64_one]
  have hm : (-(st.regs .RAX) - 1) % 2 = 0 := by omega
  rw [hm]
  have hw : wrap64 (0 - 1) = -1 := wrap64_id _ (by norm_num) (by norm_num)
  rw [hw]
  norm_num

theorem is_number_with_error_run_even (oracle : Oracle) (ctxt : Context) (st : MState)
    (h1 : -9223372036854775808 ≤ st.regs .RAX) (h2 : st.regs .RAX < 9223372036854775808)
    (heven : st.regs .RAX % 2 = 0) :
    runStraight oracle ((is_number_with_error ctxt).map FInstr.instr) st =
      .fin (isNumberEnd st) := by
  rw [is_number_with_error, List.map_append,
    run_append_fin _ _ _ _ _ (is_number_run oracle ctxt st)]
  simp only [List.map]
  rw [run_cons_next _ _ _ _ _ (step_jne_stay _ _ _ (isNumberEnd_zf_even st h1 h2 heven))]
  rfl

theorem is_number_with_error_run_odd (oracle : Oracle) (ctxt : Context) (st : MState)
    (h1 : -9223372036854775808 ≤ st.regs .RAX) (h2 : st.regs .RAX < 9223372036854775808)
    (hodd : st.regs .RAX % 2 = 1) :
    runStraight oracle ((is_number_with_error ctxt).map FInstr.instr) st =
      .jmp INVALID_TYPE_LABEL (isNumberEnd st) := by
  rw [is_number_with_error, List.map_append,
    run_append_fin _ _ _ _ _ (is_number_run oracle ctxt st)]
  simp only [List.map]
  rw [run_cons_jmp _ _ _ _ _ _ (step_jne_taken _ _ _ (isNumberEnd_zf_odd st h1 h2 hodd))]

theorem add1_tail_sem (oracle : Oracle) (ctxt : Context) (n : Int) (st : MState)
    (hrax : st.regs .RAX = 2 * n) (hn1 : -4611686018427387904 ≤ n)
    (hn2 : n ≤ 4611686018427387903) :
    (n + 1 ≤ I63_MAX →
      finRegs (runStraight oracle
          ((is_number_with_error ctxt ++ [FInstr.mk (.Add (.Reg .RAX) (.Imm 2)) ctxt.indentation] ++
            get_num_overflow_instrs ctxt).map FInstr.instr) st) .RAX = some (2 * (n + 1))) ∧
    (I63_MAX < n + 1 →
      runJumpLabel oracle
          ((is_number_with_error ctxt ++ [FInstr.mk (.Add (.Reg .RAX) (.Imm 2)) ctxt.indentation] ++
            get_num_overflow_instrs ctxt).map FInstr.instr) st = some NUM_OVERFLOW_LABEL) := by
  have hIM : I63_MAX = 4611686018427387903 := rfl
  have hcheck := is_number_with_error_run_even oracle ctxt st (by omega) (by omega) (by omega)
  have hraxn : (isNumberEnd st).regs .RAX = 2 * n := by rw [isNumberEnd_rax, hrax]
  constructor
  · intro hle
    have hle' : n + 1 ≤ 4611686018427387903 := by omega
    have hw : wrap64 (2 * n + 2) = 2 * n + 2 := wrap64_id _ (by omega) (by omega)
    rw [List.map_append, List.map_append, List.append_assoc,
      run_append_fin _ _ _ _ _ hcheck]
    simp only [List.map, get_num_overflow_instrs]
    simp [runStraight, step, readVal, writeVal, regs_setReg, mem_setReg, hw, finRegs, hraxn]
    omega
  · intro hgt
    have hn : n = 4611686018427387903 := by omega
    have hw : wrap64 (2 * n + 2) = -9223372036854775808 := by
      unfold wrap64
      omega
    have hne : (-9223372036854775808 : Int) ≠ 2 * n + 2 := by omega
    rw [runJumpLabel, List.map_append, List.map_append, List.append_assoc,
      run_append_fin _ _ _ _ _ hcheck]
    simp only [List.map, get_num_overflow_instrs]
    simp [runStraight, step, readVal, writeVal, regs_setReg, mem_setReg, hw, hne, hraxn]

/-- C7: the code emitted for `(add1 e)` is the code of `e` followed by the
number check (which jumps to the invalid-type trampoline on any odd word),
`add rax, 2` (the constant `1 << 1`) and `jo` to the numeric-overflow
trampoline; running that tail on a number `2 * n` yields `2 * (n + 1)` when
`n + 1` stays in the 63-bit range and jumps to the overflow label otherwise,
whose trampoline passes `ERR_NUM_OVERFLOW = 1` to `snek_error`, which exits
with code 1. -/
theorem C7_add1_semantics :
    (∀ (e : Expr) (ctxt : Context) (ctr : Nat) (is : List FInstr) (c1 : Nat),
      compile_expr e ctxt ctr = .ok (is, c1) →
      compile_expr (.UnOp .Add1 e) ctxt ctr =
        .ok (is ++ is_number_with_error ctxt ++
             [FInstr.mk (.Add (.Reg .RAX) (.Imm 2)) ctxt.indentation] ++
             get_num_overflow_instrs ctxt, c1)) ∧
    (∀ (oracle : Oracle) (ctxt : Context) (st : MState),
      -9223372036854775808 ≤ st.regs .RAX → st.regs .RAX < 9223372036854775808 →
      st.regs .RAX % 2 = 1 →
      runJumpLabel oracle ((is_number_with_error ctxt).map FInstr.instr) st =
        some INVALID_TYPE_LABEL) ∧
    (∀ (oracle : Oracle) (ctxt : Context) (n : Int) (st : MState),
      st.regs .RAX = 2 * n → -4611686018427387904 ≤ n → n ≤ 4611686018427387903 →
      (n + 1 ≤ I63_MAX →
        finRegs (runStraight oracle
            ((is_number_with_error ctxt ++
              [FInstr.mk (.Add (.Reg .RAX) (.Imm 2)) ctxt.indentation] ++
              get_num_overflow_instrs ctxt).map FInstr.instr) st) .RAX =
          some (2 * (n + 1))) ∧
      (I63_MAX < n + 1 →
        runJumpLabel oracle
            ((is_number_with_error ctxt ++
              [FInstr.mk (.Add (.Reg .RAX) (.Imm 2)) ctxt.indentation] ++
              get_num_overflow_instrs ctxt).map FInstr.instr) st =
          some NUM_OVERFLOW_LABEL)) ∧
    (ERR_NUM_OVERFLOW = 1 ∧
      get_error_instrs ERR_NUM_OVERFLOW 1 =
        .ok [FInstr.mk (.Label NUM_OVERFLOW_LABEL) 1,
             FInstr.mk (.Mov (.Reg .RDI) (.Imm 1)) 2,
             FInstr.mk (.Push (.Reg .RSP)) 2,
             FInstr.mk (.Call "snek_error") 2] ∧
      snek_error 1 = ("an error occurred: numeric overflow", 1)) := by
  refine ⟨?_, ?_, ?_, rfl, rfl, by decide⟩
  · intro e ctxt ctr is c1 h
    rw [compile_expr, h]
  · intro oracle ctxt st h1 h2 hodd
    rw [runJumpLabel, is_number_with_error_run_odd oracle ctxt st h1 h2 hodd]
  · intro oracle ctxt n st hrax hn1 hn2
    exact add1_tail_sem oracle ctxt n st hrax hn1 hn2

/-- C7 witness: `(add1 20)` compiles to the claimed shape; running the tail
with 40 (= 2·20) in RAX yields 42; running it with `2 · I63_MAX` in RAX
jumps to the overflow label; running the check with the odd word 3 in RAX
jumps to the invalid-type label. -/
theorem C7_witness :
    compile_expr (.UnOp .Add1 (.Number 20)) ctxt0 0 =
      .ok ([FInstr.mk (.Mov (.Reg .RAX) (.Imm 40)) 1] ++ is_number_with_error ctxt0 ++
           [FInstr.mk (.Add (.Reg .RAX) (.Imm 2)) ctxt0.indentation] ++
           get_num_overflow_instrs ctxt0, 0) ∧
    runJumpLabel clobberOracle ((is_number_with_error ctxt0).map FInstr.instr)
      (setReg st0 .RAX 3) = some INVALID_TYPE_LABEL ∧
    finRegs (runStraight clobberOracle
        ((is_number_with_error ctxt0 ++
          [FInstr.mk (.Add (.Reg .RAX) (.Imm 2)) ctxt0.indentation] ++
          get_num_overflow_instrs ctxt0).map FInstr.instr)
        (setReg st0 .RAX 40)) .RAX = some 42 ∧
    runJumpLabel clobberOracle
        ((is_number_with_error ctxt0 ++
          [FInstr.mk (.Add (.Reg .RAX) (.Imm 2)) ctxt0.indentation] ++
          get_num_overflow_instrs ctxt0).map FInstr.instr)
        (setReg st0 .RAX 9223372036854775806) = some NUM_OVERFLOW_LABEL := by
  refine ⟨?_, ?_, ?_, ?_⟩
  · exact C7_add1_semantics.1 (.Number 20) ctxt0 0
      [FInstr.mk (.Mov (.Reg .RAX) (.Imm 40)) 1] 0
      (by simp [compile_expr, int_overflow, I63_MIN, I63_MAX, ctxt0])
  · exact C7_add1_semantics.2.1 clobberOracle ctxt0 (setReg st0 .RAX 3)
      (by decide) (by decide) (by decide)
  · have h := (C7_add1_semantics.2.2.1 clobberOracle ctxt0 20 (setReg st0 .RAX 40)
      (by decide) (by decide) (by decide)).1 (by decide)
    simpa using h
  · have h := (C7_add1_semantics.2.2.1 clobberOracle ctxt0 4611686018427387903
      (setReg st0 .RAX 9223372036854775806)
      (by decide) (by decide) (by decide)).2 (by decide)
    exact h

theorem heapAddrEnd_rax (st : MState) : (heapAddrEnd st).regs .RAX = st.regs .RAX := rfl

theorem heapAddrEnd_rsp (st : MState) : (heapAddrEnd st).regs .RSP = st.regs .RSP := rfl

theorem heapAddrEnd_rdi (st : MState) : (heapAddrEnd st).regs .RDI = st.regs .RDI := rfl

theorem heapAddrEnd_r15 (st : MState) : (heapAddrEnd st).regs .R15 = st.regs .R15 := rfl

theorem heapAddrEnd_mem (st : MState) : (heapAddrEnd st).mem = st.mem := rfl

theorem heapAddrEnd_zf (st : MState) :
    (heapAddrEnd st).zf = decide (wrap64 (and64 (st.regs .RAX) 1 - 1) = 0) := by
  simp [heapAddrEnd, setReg]

theorem heapAddrEnd_zf_odd (st : MState) (hodd : st.regs .RAX % 2 = 1) :
    (heapAddrEnd st).zf = true := by
  rw [heapAddrEnd_zf, and64_one, hodd]
  norm_num
  exact wrap64_id 0 (by norm_num) (by norm_num)

theorem heapAddrEnd_zf_even (st : MState) (heven : st.regs .RAX % 2 = 0) :
    (heapAddrEnd st).zf = false := by
  rw [heapAddrEnd_zf, and64_one, heven]
  have hw : wrap64 (0 - 1) = -1 := wrap64_id _ (by norm_num) (by norm_num)
  rw [hw]
  norm_num

theorem is_heap_check_run_odd (oracle : Oracle) (ctxt : Context) (st : MState)
    (hodd : st.regs .RAX % 2 = 1) :
    runStraight oracle ((is_heap_address_with_error ctxt).map FInstr.instr) st =
      .fin (heapAddrEnd st) := by
  rw [is_heap_address_with_error, List.map_append,
    run_append_fin _ _ _ _ _ (is_heap_address_run oracle ctxt st)]
  simp only [List.map]
  rw [run_cons_next _ _ _ _ _ (step_jne_stay _ _ _ (heapAddrEnd_zf_odd st hodd))]
  rfl

theorem is_heap_check_run_even (oracle : Oracle) (ctxt : Context) (st : MState)
    (heven : st.regs .RAX % 2 = 0) :
    runStraight oracle ((is_heap_address_with_error ctxt).map FInstr.instr) st =
      .jmp NOT_HEAP_ADDRESS_LABEL (heapAddrEnd st) := by
  rw [is_heap_address_with_error, List.map_append,
    run_append_fin _ _ _ _ _ (is_heap_address_run oracle ctxt st)]
  simp only [List.map]
  rw [run_cons_jmp _ _ _ _ _ _ (step_jne_taken _ _ _ (heapAddrEnd_zf_even st heven))]

theorem idx_b1_run (oracle : Oracle) (si : Int) (st : MState) :
    runStraight oracle
      [.Mov (.Reg .RBX) (.RegOff .RSP (si * 8)), .Sub (.Reg .RBX) (.Imm 1),
       .Mov (.Reg .R12) (.RegOff .RBX 0), .Cmp (.Reg .RAX) (.Reg .R12)] st =
      .fin (idxB1End st si) := rfl

theorem cmp_rax_zero_run (oracle : Oracle) (st : MState) :
    runStraight oracle [.Cmp (.Reg .RAX) (.Imm 0)] st = .fin (cmpRaxZeroEnd st) := rfl

theorem idx_load_run (oracle : Oracle) (st : MState) :
    runStraight oracle
      [.Sar (.Reg .RAX) (.Imm 1), .Add (.Reg .RAX) (.Imm 1), .Mul (.Reg .RAX) (.Imm 8),
       .Add (.Reg .RBX) (.Reg .RAX), .Mov (.Reg .RAX) (.RegOff .RBX 0)] st =
      .fin (idxLoadEnd st) := rfl

theorem idxB1End_facts (st : MState) (si i p len : Int)
    (hrax : st.regs .RAX = 2 * i) (hslot : st.mem (st.regs .RSP - si * 8) = p)
    (hhdr : st.mem (p - 1) = 2 * len)
    (hi1 : -4294967296 ≤ i) (hi2 : i ≤ 4294967296)
    (hl1 : 0 ≤ len) (hl2 : len ≤ 4294967296)
    (hp1 : 1 ≤ p) (hp2 : p ≤ 4294967296) :
    (idxB1End st si).regs .RAX = 2 * i ∧
    (idxB1End st si).regs .RBX = p - 1 ∧
    (idxB1End st si).regs .R12 = 2 * len ∧
    (idxB1End st si).mem = st.mem ∧
    (idxB1End st si).sf = decide (2 * i - 2 * len < 0) ∧
    (idxB1End st si).ovf = false ∧
    (idxB1End st si).regs .RSP = st.regs .RSP := by
  have hw1 : wrap64 (p - 1) = p - 1 := wrap64_id _ (by omega) (by omega)
  have hw2 : wrap64 (2 * i - 2 * len) = 2 * i - 2 * len := wrap64_id _ (by omega) (by omega)
  refine ⟨?_, ?_, ?_, ?_, ?_, ?_, ?_⟩ <;>
    simp [idxB1End, setReg, hslot, hrax, hw1, hhdr, hw2]

theorem cmpRaxZeroEnd_facts (st : MState) (i : Int) (hrax : st.regs .RAX = 2 * i)
    (hi1 : -4294967296 ≤ i) (hi2 : i ≤ 4294967296) :
    (cmpRaxZeroEnd st).regs = st.regs ∧ (cmpRaxZeroEnd st).mem = st.mem ∧
    (cmpRaxZeroEnd st).sf = decide (2 * i < 0) ∧ (cmpRaxZeroEnd st).ovf = false := by
  have hw : wrap64 (2 * i) = 2 * i := wrap64_id _ (by omega) (by omega)
  refine ⟨rfl, rfl, ?_, ?_⟩ <;> simp [cmpRaxZeroEnd, hrax, hw]

theorem idxLoadEnd_rax (st : MState) :
    (idxLoadEnd st).regs .RAX =
      st.mem (wrap64 (st.regs .RBX + wrap64 (wrap64 (sar64 (st.regs .RAX) 1 + 1) * 8)) - 0) := by
  simp [idxLoadEnd, setReg]

theorem idxLoadEnd_result (st : MState) (i p : Int)
    (hrax : st.regs .RAX = 2 * i) (hrbx : st.regs .RBX = p - 1)
    (hi1 : 0 ≤ i) (hi2 : i ≤ 4294967296) (hp1 : 1 ≤ p) (hp2 : p ≤ 4294967296) :
    (idxLoadEnd st).regs .RAX = st.mem (p - 1 + 8 * (i + 1)) := by
  rw [idxLoadEnd_rax, hrax, hrbx, sar64_double]
  rw [wrap64_id (i + 1) (by omega) (by omega)]
  rw [wrap64_id ((i + 1) * 8) (by omega) (by omega)]
  rw [wrap64_id (p - 1 + (i + 1) * 8) (by omega) (by omega)]
  rw [show p - 1 + (i + 1) * 8 - 0 = p - 1 + 8 * (i + 1) by ring]

/-- C2: the claim says tuple/vec construction reserves all `1 + k` words by
advancing the heap pointer before any element is evaluated and stores each
element at a fixed offset from the reserved base reloaded from its stack
slot.  The emitted code instead bumps the heap pointer by a single word
(the header) and stores each element at the *current* heap cursor, so a
nested construction `(tuple (tuple 1 2) nil)` allocates the inner tuple in
the cells the claim reserves for the outer elements: after running the
emitted code with the heap at 4096, the outer tuple's first element cell
(4104) holds the inner tuple's header word 4 instead of the tagged inner
pointer 4105, and its second element cell (4112) holds the inner element 2
instead of nil (1). -/
theorem C2_tuple_construction_bumps_incrementally :
    compile_expr (.Tuple [.Tuple [.Number 1, .Number 2], .Nil]) ctxt0 0 =
      .ok (tupNestedCode, 0) ∧
    (tupNestedCode.map FInstr.instr).take 4 =
      [.Mov (.RegOff .RSP 16) (.Reg .R15), .Mov (.Reg .R12) (.Imm 4),
       .Mov (.RegOff .R15 0) (.Reg .R12), .Add (.Reg .R15) (.Imm 8)] ∧
    finRegs (runStraight clobberOracle (tupNestedCode.map FInstr.instr) st0) .RAX =
      some 4097 ∧
    finMem (runStraight clobberOracle (tupNestedCode.map FInstr.instr) st0) 4104 =
      some 4 ∧
    finMem (runStraight clobberOracle (tupNestedCode.map FInstr.instr) st0) 4112 =
      some 2 ∧
    (4 : Int) ≠ 4105 ∧ (2 : Int) ≠ 1 := by
  refine ⟨?_, by decide, by decide, by decide, by decide, by decide, by decide⟩
  simp [compile_expr, compile_tuple_args, ctxt0, tupNestedCode, int_overflow,
    I63_MIN, I63_MAX, NIL_VAL, WORD_SIZE]

/-- C3: the claim says the vector header holds the element count as a raw
un-shifted integer and that the runtime reads back the same count.  The
emitted code for `(tuple 10 20)` writes `2 << 1 = 4` into the header, while
`snek_str` reads the header word raw: printing the resulting two-element
tuple walks 4 elements and renders `[10, 20, 0, 0]`. -/
theorem C3_header_count_is_shifted_but_read_raw :
    compile_expr (.Tuple [.Number 10, .Number 20]) ctxt0 0 = .ok (tupPairCode, 0) ∧
    (tupPairCode.map FInstr.instr).get? 1 = some (.Mov (.Reg .R12) (.Imm 4)) ∧
    (4 : Int) ≠ 2 ∧
    finMem (runStraight clobberOracle (tupPairCode.map FInstr.instr) st0) 4096 =
      some 4 ∧
    finRegs (runStraight clobberOracle (tupPairCode.map FInstr.instr) st0) .RAX =
      some 4097 ∧
    snek_str (finMemFun (runStraight clobberOracle (tupPairCode.map FInstr.instr) st0))
      10 4097 [] = some ("[10, 20, 0, 0]", []) ∧
    "[10, 20, 0, 0]" ≠ "[10, 20]" := by
  refine ⟨?_, by decide, by decide, by decide, by decide, by decide, by decide⟩
  simp [compile_expr, compile_tuple_args, ctxt0, tupPairCode, int_overflow,
    I63_MIN, I63_MAX, WORD_SIZE]

/-- C4 counterexample: the claim says a nil receiver traps
invalid-vector-address.  Running the code emitted for `(index nil 0)` from
the sample start state instead falls through the pointer check (nil = 1 has
low bit 1) and ends up trapping index-out-of-bounds — a different
trampoline. -/
theorem C4_counterexample_nil_passes_pointer_check :
    compile_expr (.Index .Nil (.Number 0)) ctxt0 0 = .ok (indexNilCode, 0) ∧
    runJumpLabel clobberOracle (indexNilCode.map FInstr.instr) st0 =
      some INDEX_OUT_OF_BOUNDS_LABEL ∧
    INDEX_OUT_OF_BOUNDS_LABEL ≠ NOT_HEAP_ADDRESS_LABEL := by
  refine ⟨?_, by decide, by decide⟩
  simp [compile_expr, ctxt0, indexNilCode, int_overflow, I63_MIN, I63_MAX, NIL_VAL,
    WORD_SIZE, is_heap_address_with_error, is_heap_address, is_number]

theorem is_number_then_jne_run_odd (oracle : Oracle) (ctxt : Context) (l : String)
    (st : MState) (h1 : -9223372036854775808 ≤ st.regs .RAX)
    (h2 : st.regs .RAX < 9223372036854775808) (hodd : st.regs .RAX % 2 = 1) :
    runStraight oracle ((is_number ctxt).map FInstr.instr ++ [.JumpNotEqual l]) st =
      .jmp l (isNumberEnd st) := by
  rw [run_append_fin _ _ _ _ _ (is_number_run oracle ctxt st)]
  rw [run_cons_jmp _ _ _ _ _ _ (step_jne_taken _ _ _ (isNumberEnd_zf_odd st h1 h2 hodd))]

theorem is_number_then_jne_run_even (oracle : Oracle) (ctxt : Context) (l : String)
    (st : MState) (h1 : -9223372036854775808 ≤ st.regs .RAX)
    (h2 : st.regs .RAX < 9223372036854775808) (heven : st.regs .RAX % 2 = 0) :
    runStraight oracle ((is_number ctxt).map FInstr.instr ++ [.JumpNotEqual l]) st =
      runStraight oracle [] (isNumberEnd st) := by
  rw [run_append_fin _ _ _ _ _ (is_number_run oracle ctxt st)]
  rw [run_cons_next _ _ _ _ _ (step_jne_stay _ _ _ (isNumberEnd_zf_even st h1 h2 heven))]

theorem step_cmp_rax_zero (oracle : Oracle) (st : MState) :
    step oracle (.Cmp (.Reg .RAX) (.Imm 0)) st = .next (cmpRaxZeroEnd st) := rfl

theorem index_tail_sem (oracle : Oracle) (si : Int) (st : MState) (i p len : Int)
    (hrax : st.regs .RAX = 2 * i) (hslot : st.mem (st.regs .RSP - si * 8) = p)
    (hhdr : st.mem (p - 1) = 2 * len)
    (hi1 : -4294967296 ≤ i) (hi2 : i ≤ 4294967296)
    (hl1 : 0 ≤ len) (hl2 : len ≤ 4294967296)
    (hp1 : 1 ≤ p) (hp2 : p ≤ 4294967296) :
    (len ≤ i → runJumpLabel oracle (indexTailInstrs si) st =
      some INDEX_OUT_OF_BOUNDS_LABEL) ∧
    (i < 0 → runJumpLabel oracle (indexTailInstrs si) st =
      some INDEX_OUT_OF_BOUNDS_LABEL) ∧
    (0 ≤ i → i < len → finRegs (runStraight oracle (indexTailInstrs si) st) .RAX =
      some (st.mem (p - 1 + 8 * (i + 1)))) := by
  obtain ⟨f1, f2, f3, f4, f5, f6, f7⟩ :=
    idxB1End_facts st si i p len hrax hslot hhdr hi1 hi2 hl1 hl2 hp1 hp2
  have hdec : indexTailInstrs si =
      [.Mov (.Reg .RBX) (.RegOff .RSP (si * 8)), .Sub (.Reg .RBX) (.Imm 1),
       .Mov (.Reg .R12) (.RegOff .RBX 0), .Cmp (.Reg .RAX) (.Reg .R12)] ++
      (Instr.JumpGreaterEqual INDEX_OUT_OF_BOUNDS_LABEL ::
        (Instr.Cmp (.Reg .RAX) (.Imm 0) ::
          (Instr.JumpLess INDEX_OUT_OF_BOUNDS_LABEL ::
            [.Sar (.Reg .RAX) (.Imm 1), .Add (.Reg .RAX) (.Imm 1),
             .Mul (.Reg .RAX) (.Imm 8), .Add (.Reg .RBX) (.Reg .RAX),
             .Mov (.Reg .RAX) (.RegOff .RBX 0)]))) := rfl
  refine ⟨?_, ?_, ?_⟩
  · intro hge
    have hflag : ((idxB1End st si).sf == (idxB1End st si).ovf) = true := by
      rw [f5, f6]
      simp
      omega
    obtain ⟨stx, hrun⟩ : ∃ stx, runStraight oracle (indexTailInstrs si) st =
        .jmp INDEX_OUT_OF_BOUNDS_LABEL stx :=
      ⟨_, by
        rw [hdec, run_append_fin _ _ _ _ _ (idx_b1_run oracle si st)]
        exact run_cons_jmp _ _ _ _ _ _ (step_jge_taken _ _ _ hflag)⟩
    rw [runJumpLabel, hrun]
  · intro hneg
    have hflag : ((idxB1End st si).sf == (idxB1End st si).ovf) = false := by
      rw [f5, f6]
      simp
      omega
    obtain ⟨g1, g2, g3, g4⟩ := cmpRaxZeroEnd_facts (idxB1End st si) i
      (by rw [f1]) hi1 hi2
    have hflag2 : ((cmpRaxZeroEnd (idxB1End st si)).sf !=
        (cmpRaxZeroEnd (idxB1End st si)).ovf) = true := by
      rw [g3, g4]
      simp
      omega
    obtain ⟨stx, hrun⟩ : ∃ stx, runStraight oracle (indexTailInstrs si) st =
        .jmp INDEX_OUT_OF_BOUNDS_LABEL stx :=
      ⟨_, by
        rw [hdec, run_append_fin _ _ _ _ _ (idx_b1_run oracle si st)]
        rw [run_cons_next _ _ _ _ _ (step_jge_stay _ _ _ hflag)]
        rw [run_cons_next _ _ _ _ _ (step_cmp_rax_zero oracle (idxB1End st si))]
        exact run_cons_jmp _ _ _ _ _ _ (step_jl_taken _ _ _ hflag2)⟩
    rw [runJumpLabel, hrun]
  · intro hge0 hlt
    have hflag : ((idxB1End st si).sf == (idxB1End st si).ovf) = false := by
      rw [f5, f6]
      simp
      omega
    obtain ⟨g1, g2, g3, g4⟩ := cmpRaxZeroEnd_facts (idxB1End st si) i
      (by rw [f1]) hi1 hi2
    have hflag2 : ((cmpRaxZeroEnd (idxB1End st si)).sf !=
        (cmpRaxZeroEnd (idxB1End st si)).ovf) = false := by
      rw [g3, g4]
      simp
      omega
    have hload : (idxLoadEnd (cmpRaxZeroEnd (idxB1End st si))).regs .RAX =
        (cmpRaxZeroEnd (idxB1End st si)).mem (p - 1 + 8 * (i + 1)) :=
      idxLoadEnd_result _ i p (by rw [g1, f1]) (by rw [g1, f2]) hge0 hi2 hp1 hp2
    have hrun : runStraight oracle (indexTailInstrs si) st =
        .fin (idxLoadEnd (cmpRaxZeroEnd (idxB1End st si))) := by
      rw [hdec, run_append_fin _ _ _ _ _ (idx_b1_run oracle si st)]
      rw [run_cons_next _ _ _ _ _ (step_jge_stay _ _ _ hflag)]
      rw [run_cons_next _ _ _ _ _ (step_cmp_rax_zero oracle (idxB1End st si))]
      rw [run_cons_next _ _ _ _ _ (step_jl_stay _ _ _ hflag2)]
      exact idx_load_run oracle _
    rw [hrun, finRegs, hload, g2, f4]

/-- C4 amended: the code emitted for `(index a o)` checks only that the
receiver has low bit 1 — an even word (a number) traps
invalid-vector-address, while nil (1) and the booleans (3, 7) pass the
check; the index is checked to be a number (an odd index word traps
invalid-vector-offset); index-out-of-bounds fires exactly when the tagged
index is at least the header word or negative; otherwise the element is
loaded from the cleared pointer plus `(index + 1)` words. -/
theorem C4_amended_index_checks_and_load :
    (∀ (a o : Expr) (ctxt : Context) (ctr : Nat) (isa : List FInstr) (c1 : Nat)
        (iso : List FInstr) (c2 : Nat),
      compile_expr a ctxt ctr = .ok (isa, c1) →
      compile_expr o { ctxt with si := ctxt.si + 1 } c1 = .ok (iso, c2) →
      compile_expr (.Index a o) ctxt ctr =
        .ok (isa ++ is_heap_address_with_error ctxt ++
             [FInstr.mk (.Mov (.RegOff .RSP (ctxt.si * WORD_SIZE)) (.Reg .RAX))
                ctxt.indentation] ++
             iso ++ is_number ctxt ++
             [FInstr.mk (.JumpNotEqual NOT_INDEX_OFFSET_LABEL) ctxt.indentation] ++
             (indexTailInstrs ctxt.si).map (fun ins => FInstr.mk ins ctxt.indentation),
             c2)) ∧
    (∀ (oracle : Oracle) (ctxt : Context) (st : MState),
      (st.regs .RAX % 2 = 1 →
        runStraight oracle ((is_heap_address_with_error ctxt).map FInstr.instr) st =
          .fin (heapAddrEnd st)) ∧
      (st.regs .RAX % 2 = 0 →
        runStraight oracle ((is_heap_address_with_error ctxt).map FInstr.instr) st =
          .jmp NOT_HEAP_ADDRESS_LABEL (heapAddrEnd st))) ∧
    (NIL_VAL % 2 = 1 ∧ TRUE_VAL % 2 = 1 ∧ FALSE_VAL % 2 = 1) ∧
    (∀ (oracle : Oracle) (ctxt : Context) (st : MState),
      -9223372036854775808 ≤ st.regs .RAX → st.regs .RAX < 9223372036854775808 →
      st.regs .RAX % 2 = 1 →
      runStraight oracle
          ((is_number ctxt).map FInstr.instr ++ [.JumpNotEqual NOT_INDEX_OFFSET_LABEL]) st =
        .jmp NOT_INDEX_OFFSET_LABEL (isNumberEnd st)) ∧
    (∀ (oracle : Oracle) (si : Int) (st : MState) (i p len : Int),
      st.regs .RAX = 2 * i → st.mem (st.regs .RSP - si * 8) = p →
      st.mem (p - 1) = 2 * len →
      -4294967296 ≤ i → i ≤ 4294967296 → 0 ≤ len → len ≤ 4294967296 →
      1 ≤ p → p ≤ 4294967296 →
      (len ≤ i → runJumpLabel oracle (indexTailInstrs si) st =
        some INDEX_OUT_OF_BOUNDS_LABEL) ∧
      (i < 0 → runJumpLabel oracle (indexTailInstrs si) st =
        some INDEX_OUT_OF_BOUNDS_LABEL) ∧
      (0 ≤ i → i < len → finRegs (runStraight oracle (indexTailInstrs si) st) .RAX =
        some (st.mem (p - 1 + 8 * (i + 1))))) := by
  refine ⟨?_, ?_, ⟨rfl, rfl, rfl⟩, ?_, ?_⟩
  · intro a o ctxt ctr isa c1 iso c2 h1 h2
    rw [compile_expr, h1]
    simp only [h2]
    simp [indexTailInstrs, WORD_SIZE]
  · intro oracle ctxt st
    exact ⟨fun h => is_heap_check_run_odd oracle ctxt st h,
           fun h => is_heap_check_run_even oracle ctxt st h⟩
  · intro oracle ctxt st h1 h2 hodd
    exact is_number_then_jne_run_odd oracle ctxt _ st h1 h2 hodd
  · intro oracle si st i p len hrax hslot hhdr hi1 hi2 hl1 hl2 hp1 hp2
    exact index_tail_sem oracle si st i p len hrax hslot hhdr hi1 hi2 hl1 hl2 hp1 hp2

/-- RDI spill/call/reload round trip: saving RDI to a stack slot, moving
the stack pointer down by the same offset, calling a function that preserves
RSP and memory, moving the stack pointer back and reloading the slot leaves
RDI and RSP unchanged. -/
theorem rdi_roundtrip_sem (oracle : Oracle) (f : String) (off : Int) (st : MState)
    (hrsp : ∀ s, (oracle f s).regs .RSP = s.regs .RSP)
    (hmem : ∀ s a, (oracle f s).mem a = s.mem a)
    (ho1 : -4611686018427387903 ≤ off) (ho2 : off ≤ 4611686018427387903)
    (hr1 : -4611686018427387903 ≤ st.regs .RSP)
    (hr2 : st.regs .RSP ≤ 4611686018427387903) :
    finRegs (runStraight oracle
      [.Mov (.RegOff .RSP off) (.Reg .RDI), .Mov (.Reg .RDI) (.Reg .RAX),
       .Sub (.Reg .RSP) (.Imm off), .Call f,
       .Add (.Reg .RSP) (.Imm off), .Mov (.Reg .RDI) (.RegOff .RSP off)] st) .RDI =
      some (st.regs .RDI) ∧
    finRegs (runStraight oracle
      [.Mov (.RegOff .RSP off) (.Reg .RDI), .Mov (.Reg .RDI) (.Reg .RAX),
       .Sub (.Reg .RSP) (.Imm off), .Call f,
       .Add (.Reg .RSP) (.Imm off), .Mov (.Reg .RDI) (.RegOff .RSP off)] st) .RSP =
      some (st.regs .RSP) := by
  have hw1 : wrap64 (st.regs .RSP - off) = st.regs .RSP - off :=
    wrap64_id _ (by omega) (by omega)
  have hw2 : wrap64 (st.regs .RSP) = st.regs .RSP :=
    wrap64_id _ (by omega) (by omega)
  constructor
  · simp only [runStraight, step, readVal, writeVal, setReg, setMem, finRegs]
    simp [hrsp, hmem, hw1, hw2]
  · simp only [runStraight, step, readVal, writeVal, setReg, setMem, finRegs]
    simp [hrsp, hmem, hw1, hw2]

/-- Semantics of the four-instruction call tail: after moving the stack
pointer down by `off`, calling an RSP- and memory-preserving function,
reloading RDI from offset `roff` below the moved pointer and moving the
pointer back, RDI holds the word at `rsp - off - roff` and RSP is
restored. -/
theorem call_tail_sem (oracle : Oracle) (f : String) (off roff : Int) (st : MState)
    (hrsp : ∀ s, (oracle f s).regs .RSP = s.regs .RSP)
    (hmem : ∀ s a, (oracle f s).mem a = s.mem a)
    (ho1 : -4611686018427387903 ≤ off) (ho2 : off ≤ 4611686018427387903)
    (hr1 : -4611686018427387903 ≤ st.regs .RSP)
    (hr2 : st.regs .RSP ≤ 4611686018427387903) :
    finRegs (runStraight oracle
      [.Sub (.Reg .RSP) (.Imm off), .Call f,
       .Mov (.Reg .RDI) (.RegOff .RSP roff), .Add (.Reg .RSP) (.Imm off)] st) .RDI =
      some (st.mem (st.regs .RSP - off - roff)) ∧
    finRegs (runStraight oracle
      [.Sub (.Reg .RSP) (.Imm off), .Call f,
       .Mov (.Reg .RDI) (.RegOff .RSP roff), .Add (.Reg .RSP) (.Imm off)] st) .RSP =
      some (st.regs .RSP) := by
  have hw1 : wrap64 (st.regs .RSP - off) = st.regs .RSP - off :=
    wrap64_id _ (by omega) (by omega)
  have hw2 : wrap64 (st.regs .RSP) = st.regs .RSP :=
    wrap64_id _ (by omega) (by omega)
  constructor
  · simp only [runStraight, step, readVal, writeVal, setReg, setMem, finRegs]
    simp [hrsp, hmem, hw1, hw2]
  · simp only [runStraight, step, readVal, writeVal, setReg, setMem, finRegs]
    simp [hrsp, hmem, hw1, hw2]

/-- C9: the code emitted for `print` and for a function call restores RDI.
The `print` arm emits the six bookkeeping instructions of
`printTailInstrs` after the argument code, and running them from any state,
with any call behaviour that preserves RSP and memory, leaves RDI and RSP
with their initial values.  The function-call arm spills RDI before the
argument code and emits the four instructions of `callTailInstrs` after it;
the spill writes RDI to `rsp - (si*8 + align)`, and the tail reloads RDI
from exactly that address and restores RSP, so the spill, the stack-pointer
subtraction and addition, and the reload cancel for every stack index and
argument count. -/
theorem C9_rdi_preserved_across_calls :
    (∀ (e : Expr) (ctxt : Context) (ctr : Nat) (eis : List FInstr) (c1 : Nat),
      compile_expr e ctxt ctr = .ok (eis, c1) →
      compile_expr (.UnOp .Print e) ctxt ctr =
        .ok (eis ++ (printTailInstrs ctxt.si).map
              (fun ins => FInstr.mk ins ctxt.indentation), c1)) ∧
    (∀ (oracle : Oracle) (si : Int) (st : MState),
      (∀ s, (oracle "snek_print" s).regs .RSP = s.regs .RSP) →
      (∀ s a, (oracle "snek_print" s).mem a = s.mem a) →
      0 ≤ si → si ≤ 4294967296 →
      0 ≤ st.regs .RSP → st.regs .RSP ≤ 4611686018427387000 →
      finRegs (runStraight oracle (printTailInstrs si) st) .RDI =
        some (st.regs .RDI) ∧
      finRegs (runStraight oracle (printTailInstrs si) st) .RSP =
        some (st.regs .RSP)) ∧
    (∀ (funname : String) (args : List Expr) (ctxt : Context) (ctr : Nat)
        (params : List String) (argis : List FInstr) (c1 : Nat),
      ctxt.function_env.lookup funname = some params →
      params.length = args.length →
      compile_call_args args ctxt (callAlign ctxt.si args.length) ctr =
        .ok (argis, c1) →
      compile_expr (.FunCall funname args) ctxt ctr =
        .ok ([FInstr.mk
                (.Mov (.RegOff .RSP (ctxt.si * WORD_SIZE + callAlign ctxt.si args.length))
                  (.Reg .RDI)) ctxt.indentation] ++
             argis ++
             (callTailInstrs ctxt.si args.length funname).map
               (fun ins => FInstr.mk ins ctxt.indentation), c1)) ∧
    (∀ (oracle : Oracle) (funname : String) (si : Int) (n : Nat) (st : MState),
      (∀ s, (oracle funname s).regs .RSP = s.regs .RSP) →
      (∀ s a, (oracle funname s).mem a = s.mem a) →
      0 ≤ si → si ≤ 4294967296 → (n : Int) ≤ 4294967296 →
      0 ≤ st.regs .RSP → st.regs .RSP ≤ 4611686018427387000 →
      (runStraight oracle
          [.Mov (.RegOff .RSP (si * WORD_SIZE + callAlign si n)) (.Reg .RDI)] st =
        .fin (setMem st (st.regs .RSP - (si * WORD_SIZE + callAlign si n))
          (st.regs .RDI))) ∧
      finRegs (runStraight oracle (callTailInstrs si n funname) st) .RDI =
        some (st.mem (st.regs .RSP - (si * WORD_SIZE + callAlign si n))) ∧
      finRegs (runStraight oracle (callTailInstrs si n funname) st) .RSP =
        some (st.regs .RSP)) := by
  refine ⟨?_, ?_, ?_, ?_⟩
  · intro e ctxt ctr eis c1 h1
    rw [compile_expr, h1]
    simp [printTailInstrs, WORD_SIZE]
  · intro oracle si st hrsp hmem hs1 hs2 hq1 hq2
    have hW : WORD_SIZE = (8 : Int) := rfl
    have hA : (0 : Int) ≤ (if Int.tmod (si + 1) 2 ≠ 0 then (WORD_SIZE : Int) else 0) ∧
        (if Int.tmod (si + 1) 2 ≠ 0 then (WORD_SIZE : Int) else 0) ≤ 8 := by
      constructor <;> (split <;> simp [WORD_SIZE])
    have hmain := rdi_roundtrip_sem oracle "snek_print"
      (si * WORD_SIZE + (if Int.tmod (si + 1) 2 ≠ 0 then WORD_SIZE else 0)) st hrsp hmem
      (by rw [hW] at hA ⊢; omega) (by rw [hW] at hA ⊢; omega) (by omega) (by omega)
    rw [show printTailInstrs si =
      [.Mov (.RegOff .RSP (si * WORD_SIZE +
          (if Int.tmod (si + 1) 2 ≠ 0 then WORD_SIZE else 0))) (.Reg .RDI),
       .Mov (.Reg .RDI) (.Reg .RAX),
       .Sub (.Reg .RSP) (.Imm (si * WORD_SIZE +
          (if Int.tmod (si + 1) 2 ≠ 0 then WORD_SIZE else 0))),
       .Call "snek_print",
       .Add (.Reg .RSP) (.Imm (si * WORD_SIZE +
          (if Int.tmod (si + 1) 2 ≠ 0 then WORD_SIZE else 0))),
       .Mov (.Reg .RDI) (.RegOff .RSP (si * WORD_SIZE +
          (if Int.tmod (si + 1) 2 ≠ 0 then WORD_SIZE else 0)))] from rfl]
    exact hmain
  · intro funname args ctxt ctr params argis c1 hlook hlen hargs
    simp only [callAlign, WORD_SIZE, ne_eq, ite_not] at hargs
    rw [compile_expr, hlook]
    simp [hlen, hargs, callTailInstrs, callAlign, WORD_SIZE]
  · intro oracle funname si n st hrsp hmem hs1 hs2 hn hq1 hq2
    have hW : WORD_SIZE = (8 : Int) := rfl
    have hA : (0 : Int) ≤ callAlign si n ∧ callAlign si n ≤ 8 := by
      unfold callAlign
      constructor <;> (split <;> simp [WORD_SIZE])
    have hn0 : (0 : Int) ≤ (n : Int) := Int.ofNat_nonneg n
    have hmain := call_tail_sem oracle funname
      ((si + (n : Int)) * WORD_SIZE + callAlign si n) (-((n : Int) * WORD_SIZE)) st
      hrsp hmem (by rw [hW]; omega) (by rw [hW]; omega)
      (by omega) (by omega)
    have haddr : st.regs .RSP - ((si + (n : Int)) * WORD_SIZE + callAlign si n) -
        (-((n : Int) * WORD_SIZE)) =
        st.regs .RSP - (si * WORD_SIZE + callAlign si n) := by ring
    rw [haddr] at hmain
    refine ⟨rfl, ?_, ?_⟩
    · rw [show callTailInstrs si n funname =
        [.Sub (.Reg .RSP) (.Imm ((si + (n : Int)) * WORD_SIZE + callAlign si n)),
         .Call funname,
         .Mov (.Reg .RDI) (.RegOff .RSP (-((n : Int) * WORD_SIZE))),
         .Add (.Reg .RSP) (.Imm ((si + (n : Int)) * WORD_SIZE + callAlign si n))] from rfl]
      exact hmain.1
    · rw [show callTailInstrs si n funname =
        [.Sub (.Reg .RSP) (.Imm ((si + (n : Int)) * WORD_SIZE + callAlign si n)),
         .Call funname,
         .Mov (.Reg .RDI) (.RegOff .RSP (-((n : Int) * WORD_SIZE))),
         .Add (.Reg .RSP) (.Imm ((si + (n : Int)) * WORD_SIZE + callAlign si n))] from rfl]
      exact hmain.2

theorem C9_witness :
    finRegs (runStraight clobberOracle (printTailInstrs 2) stC9) .RDI = some 777 ∧
    finRegs (runStraight clobberOracle (printTailInstrs 2) stC9) .RSP = some 1048576 ∧
    finRegs (runStraight clobberOracle (callTailInstrs 2 3 "even_odd") stC9) .RDI =
      some 777 := by
  obtain ⟨h1, h2⟩ := C9_rdi_preserved_across_calls.2.1 clobberOracle 2 stC9
    (fun _ => rfl) (fun _ _ => rfl) (by decide) (by decide) (by decide) (by decide)
  obtain ⟨h3, h4, h5⟩ := C9_rdi_preserved_across_calls.2.2.2 clobberOracle "even_odd" 2 3
    stC9 (fun _ => rfl) (fun _ _ => rfl) (by decide) (by decide) (by decide) (by decide)
    (by decide)
  refine ⟨?_, ?_, ?_⟩
  · rw [h1]
    decide
  · rw [h2]
    decide
  · rw [h4]
    decide

theorem C4_amended_witness :
    runStraight clobberOracle ((is_heap_address_with_error ctxt0).map FInstr.instr) st0 =
      .jmp NOT_HEAP_ADDRESS_LABEL (heapAddrEnd st0) ∧
    finRegs (runStraight clobberOracle (indexTailInstrs 2) stC4) .RAX = some 999 := by
  constructor
  · exact (C4_amended_index_checks_and_load.2.1 clobberOracle ctxt0 st0).2 (by decide)
  · have h := (C4_amended_index_checks_and_load.2.2.2.2 clobberOracle 2 stC4 1 4097 3
      (by decide) (by decide) (by decide) (by decide) (by decide) (by decide) (by decide)
      (by decide) (by decide)).2.2 (by decide) (by decide)
    rw [h]
    decide

/-- C10 witness: `snek_equals` on the numbers 10 and 10 (equal) and on the
number 10 versus the boolean `false` (3): equal words give true, different
words — different types included — give false. -/
theorem C10_witness :
    (¬((10 : Int) % 4 = 1 ∧ (10 : Int) % 4 = 1) ∧
      snek_equals (fun _ => 0) 5 10 10 = some (if (10 : Int) = 10 then 7 else 3)) ∧
    (¬((10 : Int) % 4 = 1 ∧ (3 : Int) % 4 = 1) ∧
      snek_equals (fun _ => 0) 5 10 3 = some (if (10 : Int) = 3 then 7 else 3)) :=
  ⟨⟨by decide,
    (C10_snek_equals_reference_equality (fun _ => 0) 4 10 10 [] (by decide)).2⟩,
   ⟨by decide,
    (C10_snek_equals_reference_equality (fun _ => 0) 4 10 3 [] (by decide)).2⟩⟩

end Snek
